import Mathlib

/-
Formal model of the Parametric-Design-Tool repository
(src/ParametricDesignTool_V1).  The relevant code is:

  * src/geometry/table/geometry.py  — `tableGeometry` (solid "table" family)
  * src/geometry/vase/geometry.py   — `vaseGeometry`  (hollow "vase" family)
  * src/core/app.py                 — geometry providers with caches,
                                      display manager, object creation service

Modelling conventions:

  * Python floats are modelled as real numbers (`ℝ`) in the geometry layer
    and as rationals (`ℚ`) in the caching / service layer, where only
    equality, comparison, ordering and rounding of parameter values matter.
  * `time.time()` values are passed in explicitly as `now` arguments;
    one call of a modelled method sees a single clock value.
  * Python dicts (which preserve insertion order and update values
    in place) are modelled as association lists with the corresponding
    operations (`dictGet`, `dictSet`, `dictDelete`).
  * Vertex rows of Panda3D's `GeomVertexWriter` are the positions in the
    emission order of `add_vertex` calls; `getWriteRow() - 1` is the row
    of the vertex just written.
-/

namespace ParametricDesignTool

/-! ## Surface modulation (src/geometry/table/geometry.py lines 33–37,
     src/geometry/vase/geometry.py lines 45–53) -/

/-- Function `get_surface_modulation(phi, length_ratio)` nested in
`tableGeometry`:
`phi += twist_angle * 0.067 * math.pi * length_ratio`, then
`object_width + (twist_groove_depth * 0.06) * cos(segment_count * phi)
 + (vertical_wave_depth * 0.15) * cos(vertical_wave_freq * length_ratio)`.
The captured parameters are passed explicitly; `lr` is `length_ratio`. -/
noncomputable def tableSurfaceModulation (segment_count object_width twist_angle
    twist_groove_depth vertical_wave_freq vertical_wave_depth phi lr : ℝ) : ℝ :=
  let phi2 := phi + twist_angle * 0.067 * Real.pi * lr
  object_width + (twist_groove_depth * 0.06) * Real.cos (segment_count * phi2)
    + (vertical_wave_depth * 0.15) * Real.cos (vertical_wave_freq * lr)

/-- Function `get_surface_modulation(phi, length_ratio)` nested in
`vaseGeometry` (textually the same formula as the one in `tableGeometry`). -/
noncomputable def vaseSurfaceModulation (segment_count object_width twist_angle
    twist_groove_depth vertical_wave_freq vertical_wave_depth phi lr : ℝ) : ℝ :=
  let phi2 := phi + twist_angle * 0.067 * Real.pi * lr
  object_width + (twist_groove_depth * 0.06) * Real.cos (segment_count * phi2)
    + (vertical_wave_depth * 0.15) * Real.cos (vertical_wave_freq * lr)

/-- Function `get_inner_surface_modulation(phi, length_ratio)` nested in
`vaseGeometry`: the same formula with
`(object_width - wall_thickness)` in place of `object_width`. -/
noncomputable def vaseInnerSurfaceModulation (segment_count object_width twist_angle
    twist_groove_depth vertical_wave_freq vertical_wave_depth wall_thickness phi lr : ℝ) : ℝ :=
  let phi2 := phi + twist_angle * 0.067 * Real.pi * lr
  (object_width - wall_thickness)
    + (twist_groove_depth * 0.06) * Real.cos (segment_count * phi2)
    + (vertical_wave_depth * 0.15) * Real.cos (vertical_wave_freq * lr)

/-- Modulation radius exactly as the specification writes it:
`phi' = phi + twistAngle * 0.067 * π * lengthRatio` and
`radius = baseWidth + grooveDepth * 0.06 * cos(segmentCount * phi')
        + waveDepth * 0.15 * cos(waveFreq * lengthRatio)`.
This is the spec-side definition used for the refinement claim C1. -/
noncomputable def specModulationRadius (baseWidth phi lr segmentCount twistAngle
    grooveDepth waveFreq waveDepth : ℝ) : ℝ :=
  let phi2 := phi + twistAngle * 0.067 * Real.pi * lr
  baseWidth + grooveDepth * 0.06 * Real.cos (segmentCount * phi2)
    + waveDepth * 0.15 * Real.cos (waveFreq * lr)

/-- C1: for every input, the surface-modulation radius used by both mesh
builders equals the spec formula
`baseWidth + grooveDepth*0.06*cos(segmentCount*phi') + waveDepth*0.15*cos(waveFreq*lengthRatio)`
with `phi' = phi + twistAngle*0.067*π*lengthRatio`; moreover the two builders
use one and the same pure function, so identical inputs give identical
outputs (determinism is inherent: the model is a mathematical function of
its arguments and of nothing else). -/
theorem C1_surface_modulation_formula :
    (∀ sc w ta gd wf wd phi lr : ℝ,
      tableSurfaceModulation sc w ta gd wf wd phi lr
        = specModulationRadius w phi lr sc ta gd wf wd) ∧
    (∀ sc w ta gd wf wd phi lr : ℝ,
      vaseSurfaceModulation sc w ta gd wf wd phi lr
        = specModulationRadius w phi lr sc ta gd wf wd) ∧
    tableSurfaceModulation = vaseSurfaceModulation := by
  refine ⟨fun sc w ta gd wf wd phi lr => ?_, fun sc w ta gd wf wd phi lr => ?_, rfl⟩ <;>
    simp only [tableSurfaceModulation, vaseSurfaceModulation, specModulationRadius] <;>
    ring

/-- C8: at every azimuthal angle and length ratio, the vase's inner-shell
radius equals the outer-shell radius computed with
`object_width - wall_thickness` substituted for `object_width`, and equals
the outer radius minus `wall_thickness`; hence groove and wave terms of the
two shells are identical in phase and magnitude. -/
theorem C8_inner_radius_tracks_outer :
    ∀ sc w ta gd wf wd wt phi lr : ℝ,
      vaseInnerSurfaceModulation sc w ta gd wf wd wt phi lr
          = vaseSurfaceModulation sc (w - wt) ta gd wf wd phi lr ∧
      vaseInnerSurfaceModulation sc w ta gd wf wd wt phi lr
          = vaseSurfaceModulation sc w ta gd wf wd phi lr - wt := by
  intro sc w ta gd wf wd wt phi lr
  constructor <;>
    simp only [vaseInnerSurfaceModulation, vaseSurfaceModulation] <;> ring

/-! ## Mesh topology

Both builders write vertices through a `GeomVertexWriter` and collect
triangles as triples of vertex rows.  The vertex row of each emitted vertex
is determined by the emission order alone, so the triangle lists below are
parameter-free; positions are modelled separately (for claim C2).
A triangle is a triple of vertex rows. -/

abbrev Tri := ℕ × ℕ × ℕ

namespace TableMesh

/-- Fixed constant `segments = 100` of `tableGeometry` (angular tessellation). -/
def segments : ℕ := 100

/-- Fixed constant `height_segments = 50` of `tableGeometry`. -/
def height_segments : ℕ := 50

/-- Row of the vertex `top_center` (the first `add_vertex` call). -/
def top_center : ℕ := 0

/-- Row of the vertex `bottom_center` (the second `add_vertex` call). -/
def bottom_center : ℕ := 1

/-- Row of `top_vertices[i]`: the cap loop emits, for each `i`, a top vertex
then a bottom vertex, starting at row 2. -/
def top_vertex (i : ℕ) : ℕ := 2 + 2 * i

/-- Row of `bottom_vertices[i]`. -/
def bottom_vertex (i : ℕ) : ℕ := 3 + 2 * i

/-- Row of the `k`-th of the four fresh vertices `v1,v2,v3,v4` (`k = 0..3`)
emitted for side-wall quad `(h, i)`: the side loop starts at row
`2 + 2*segments` and emits four vertices per `(h, i)` iteration. -/
def quad_vertex (h i k : ℕ) : ℕ := 2 + 2 * segments + 4 * (h * segments + i) + k

/-- Top- and bottom-cap fan triangles of `tableGeometry`
(`indices` entries from the two cap loops, in order). -/
def capTris : List Tri :=
  ((List.range segments).map fun i =>
    (top_center, top_vertex i, top_vertex ((i + 1) % segments)))
  ++ ((List.range segments).map fun i =>
    (bottom_center, bottom_vertex ((i + 1) % segments), bottom_vertex i))

/-- Side-wall triangles of height band `h`: for each `i`, the two triangles
`(v1, v2, v3)` and `(v1, v3, v4)` over the four fresh vertices of quad `(h, i)`. -/
def levelTris (h : ℕ) : List Tri :=
  (List.range segments).flatMap fun i =>
    [(quad_vertex h i 0, quad_vertex h i 1, quad_vertex h i 2),
     (quad_vertex h i 0, quad_vertex h i 2, quad_vertex h i 3)]

/-- All triangles of `tableGeometry`, in `indices` order: cap fans, then the
side-wall bands. -/
def tableTris : List Tri :=
  capTris ++ (List.range height_segments).flatMap levelTris

end TableMesh

namespace VaseMesh

/-- Fixed constant `segments = 40` of `vaseGeometry`. -/
def segments : ℕ := 40

/-- Fixed constant `height_segments = 40` of `vaseGeometry`. -/
def height_segments : ℕ := 40

/-- Row of `top_outer_vertices[i]` (first emission loop). -/
def top_outer (i : ℕ) : ℕ := i

/-- Row of `top_inner_vertices[i]` (second emission loop). -/
def top_inner (i : ℕ) : ℕ := segments + i

/-- Row of `bottom_outer_vertices[i]` (third emission loop). -/
def bottom_outer (i : ℕ) : ℕ := 2 * segments + i

/-- Row of `bottom_inner_vertices[i]` (fourth emission loop). -/
def bottom_inner (i : ℕ) : ℕ := 3 * segments + i

/-- Row of the `k`-th of the four vertices emitted for ring position `i` of
height band `h`: emission order per `(h, i)` is `outer_upper` (`k = 0`),
`outer_lower` (`k = 1`), `inner_upper` (`k = 2`), `inner_lower` (`k = 3`). -/
def side_vertex (h i k : ℕ) : ℕ := 4 * segments + 4 * (h * segments + i) + k

/-- Annular top- and bottom-cap triangles of `vaseGeometry`, in `indices`
order. -/
def capTris : List Tri :=
  ((List.range segments).flatMap fun i =>
    [(top_outer i, top_inner i, top_inner ((i + 1) % segments)),
     (top_outer i, top_inner ((i + 1) % segments), top_outer ((i + 1) % segments))])
  ++ ((List.range segments).flatMap fun i =>
    [(bottom_outer i, bottom_inner ((i + 1) % segments), bottom_inner i),
     (bottom_outer i, bottom_outer ((i + 1) % segments), bottom_inner ((i + 1) % segments))])

/-- Triangles of height band `h` of `vaseGeometry`: the outer-surface quads,
then the inner-surface quads, then the rim-wall faces (upper and lower per
`i`), exactly as the three inner loops emit them. -/
def levelTris (h : ℕ) : List Tri :=
  ((List.range segments).flatMap fun i =>
    [(side_vertex h i 0, side_vertex h i 1, side_vertex h ((i + 1) % segments) 1),
     (side_vertex h i 0, side_vertex h ((i + 1) % segments) 1, side_vertex h ((i + 1) % segments) 0)])
  ++ ((List.range segments).flatMap fun i =>
    [(side_vertex h i 2, side_vertex h ((i + 1) % segments) 2, side_vertex h i 3),
     (side_vertex h i 3, side_vertex h ((i + 1) % segments) 2, side_vertex h ((i + 1) % segments) 3)])
  ++ ((List.range segments).flatMap fun i =>
    [(side_vertex h i 0, side_vertex h ((i + 1) % segments) 0, side_vertex h i 2),
     (side_vertex h i 2, side_vertex h ((i + 1) % segments) 0, side_vertex h ((i + 1) % segments) 2),
     (side_vertex h i 1, side_vertex h i 3, side_vertex h ((i + 1) % segments) 1),
     (side_vertex h i 3, side_vertex h ((i + 1) % segments) 3, side_vertex h ((i + 1) % segments) 1)])

/-- All triangles of `vaseGeometry`, in `indices` order: the two annular
caps, then the height bands. -/
def vaseTris : List Tri :=
  capTris ++ (List.range height_segments).flatMap levelTris

end VaseMesh

/-! ## Edge multiplicities

An (unordered) triangle edge is encoded as a single natural number
`ekey a b = min a b * 65536 + max a b`; all vertex rows of both meshes are
far below 65536, so the encoding is injective on the edges that occur. -/

/-- Canonical key of the unordered edge between vertex rows `a` and `b`. -/
def ekey (a b : ℕ) : ℕ := if a ≤ b then a * 65536 + b else b * 65536 + a

/-- Keys of the three edges of a triangle. -/
def triEdgeKeys : Tri → List ℕ
  | (a, b, c) => [ekey a b, ekey b c, ekey c a]

/-- Keys of all edges of all triangles of a mesh, with multiplicity. -/
def edgeKeys (ts : List Tri) : List ℕ := ts.flatMap triEdgeKeys

/-- Fuel-driven merge of two sorted lists (structural recursion so that the
kernel can evaluate it). -/
def merge2 : ℕ → List ℕ → List ℕ → List ℕ
  | 0, as, bs => as ++ bs
  | _ + 1, [], bs => bs
  | _ + 1, a :: as, [] => a :: as
  | f + 1, a :: as, b :: bs =>
    if a ≤ b then a :: merge2 f as (b :: bs) else b :: merge2 f (a :: as) bs

/-- Fuel-driven merge sort. -/
def msort : ℕ → List ℕ → List ℕ
  | 0, l => l
  | f + 1, l =>
    if l.length ≤ 1 then l
    else merge2 l.length (msort f (l.take (l.length / 2))) (msort f (l.drop (l.length / 2)))

/-- Check that no value occurs three times in a row. -/
def noTriple : List ℕ → Bool
  | a :: b :: c :: t => if a == b && b == c then false else noTriple (b :: c :: t)
  | _ => true

/-- Check that every value occurs at most twice in `l` (sound by
`count_le_two_of_atMostTwo` below). -/
def atMostTwo (l : List ℕ) : Bool := noTriple (msort l.length l)

theorem merge2_perm : ∀ (f : ℕ) (as bs : List ℕ), (merge2 f as bs).Perm (as ++ bs)
  | 0, _, _ => List.Perm.refl _
  | _ + 1, [], bs => List.Perm.refl bs
  | _ + 1, _ :: _, [] => by simp [merge2]
  | f + 1, a :: as, b :: bs => by
    simp only [merge2]
    split
    · exact ((merge2_perm f as (b :: bs)).cons a)
    · exact ((merge2_perm f (a :: as) bs).cons b).trans List.perm_middle.symm

theorem msort_perm : ∀ (f : ℕ) (l : List ℕ), (msort f l).Perm l
  | 0, l => List.Perm.refl l
  | f + 1, l => by
    simp only [msort]
    split
    · exact List.Perm.refl l
    · refine (merge2_perm _ _ _).trans ?_
      have h2 := (msort_perm f (l.take (l.length / 2))).append (msort_perm f (l.drop (l.length / 2)))
      rwa [List.take_append_drop] at h2

theorem merge2_sorted : ∀ (f : ℕ) (as bs : List ℕ), as.length + bs.length ≤ f →
    as.Sorted (· ≤ ·) → bs.Sorted (· ≤ ·) → (merge2 f as bs).Sorted (· ≤ ·)
  | 0, as, bs, hf, _, _ => by
    have : as = [] ∧ bs = [] := by
      constructor <;> (apply List.eq_nil_of_length_eq_zero; omega)
    simp [merge2, this.1, this.2]
  | _ + 1, [], bs, _, _, hb => hb
  | _ + 1, _ :: _, [], _, ha, _ => ha
  | f + 1, a :: as, b :: bs, hf, ha, hb => by
    simp only [merge2]
    rw [List.sorted_cons] at ha hb
    split
    next hab =>
      rw [List.sorted_cons]
      refine ⟨fun x hx => ?_, merge2_sorted f as (b :: bs)
        (by simp at hf ⊢; omega) ha.2 (List.sorted_cons.mpr hb)⟩
      rcases List.mem_append.mp ((merge2_perm f as (b :: bs)).subset hx) with h1 | h2
      · exact ha.1 x h1
      · rcases List.mem_cons.mp h2 with rfl | h3
        · exact hab
        · exact le_trans hab (hb.1 x h3)
    next hab =>
      rw [List.sorted_cons]
      refine ⟨fun x hx => ?_, merge2_sorted f (a :: as) bs
        (by simp at hf ⊢; omega) (List.sorted_cons.mpr ha) hb.2⟩
      rcases List.mem_append.mp ((merge2_perm f (a :: as) bs).subset hx) with h1 | h2
      · rcases List.mem_cons.mp h1 with rfl | h3
        · omega
        · exact le_trans (by omega) (ha.1 x h3)
      · exact hb.1 x h2

theorem msort_sorted : ∀ (f : ℕ) (l : List ℕ), l.length ≤ f → (msort f l).Sorted (· ≤ ·)
  | 0, l, h => by
    have : l = [] := List.eq_nil_of_length_eq_zero (by omega)
    simp [msort, this]
  | f + 1, l, h => by
    simp only [msort]
    split
    next h1 =>
      match l, h1 with
      | [], _ => exact List.sorted_nil
      | [a], _ => exact List.sorted_singleton a
    next h1 =>
      have hlen2 : 2 ≤ l.length := by omega
      have htake : (l.take (l.length / 2)).length = l.length / 2 := by
        simp; omega
      have hdrop : (l.drop (l.length / 2)).length = l.length - l.length / 2 := by simp
      apply merge2_sorted
      · rw [(msort_perm f (l.take (l.length / 2))).length_eq,
          (msort_perm f (l.drop (l.length / 2))).length_eq, htake, hdrop]
        omega
      · exact msort_sorted f _ (by omega)
      · exact msort_sorted f _ (by omega)

theorem count_eq_zero_of_sorted_lt {x y : ℕ} {t : List ℕ}
    (hs : (y :: t).Sorted (· ≤ ·)) (hxy : x < y) : (y :: t).count x = 0 := by
  rw [List.count_eq_zero]
  intro hmem
  rcases List.mem_cons.mp hmem with rfl | hmem2
  · omega
  · exact absurd ((List.sorted_cons.mp hs).1 x hmem2) (by omega)

theorem noTriple_count : ∀ (s : List ℕ), s.Sorted (· ≤ ·) → noTriple s = true →
    ∀ x : ℕ, s.count x ≤ 2
  | [], _, _, x => by simp
  | [_], _, _, x => le_trans (List.count_le_length _ _) (by simp)
  | [_, _], _, _, x => le_trans (List.count_le_length _ _) (by simp)
  | a :: b :: c :: t, hs, hn, x => by
    rw [noTriple] at hn
    have hnab : ¬(a = b ∧ b = c) := by
      intro ⟨h1, h2⟩
      simp [h1, h2] at hn
    have hn2 : noTriple (b :: c :: t) = true := by
      split at hn
      · exact absurd hn (by simp)
      · exact hn
    have hs2 : (b :: c :: t).Sorted (· ≤ ·) := (List.sorted_cons.mp hs).2
    have htail := noTriple_count (b :: c :: t) hs2 hn2
    by_cases hx : x = a
    · subst hx
      rw [List.count_cons_self]
      have hle1 : (b :: c :: t).count x ≤ 1 := by
        by_cases hab : x = b
        · subst hab
          have hbc : x ≠ c := fun h => hnab ⟨rfl, h⟩
          have hxc : x < c :=
            lt_of_le_of_ne ((List.sorted_cons.mp hs2).1 c (by simp)) hbc
          rw [List.count_cons_self,
            count_eq_zero_of_sorted_lt (List.sorted_cons.mp hs2).2 hxc]
        · have hxb : x < b :=
            lt_of_le_of_ne ((List.sorted_cons.mp hs).1 b (by simp)) hab
          rw [count_eq_zero_of_sorted_lt hs2 hxb]
          omega
      omega
    · rw [List.count_cons_of_ne hx]
      exact htail x

/-- Soundness of the executable check: if `atMostTwo l` evaluates to `true`
then every value occurs at most twice in `l`. -/
theorem count_le_two_of_atMostTwo {l : List ℕ} (h : atMostTwo l = true) (x : ℕ) :
    l.count x ≤ 2 := by
  rw [← (msort_perm l.length l).count_eq x]
  exact noTriple_count _ (msort_sorted l.length l le_rfl) h x

theorem count_flatMap {α : Type} (l : List α) (f : α → List ℕ) (k : ℕ) :
    ((l.flatMap f).count k) = (l.map fun x => (f x).count k).sum := by
  induction l with
  | nil => simp
  | cons a t ih => simp [List.flatMap_cons, List.count_append, ih]

theorem sum_counts_le_two (g : ℕ → ℕ) (n : ℕ)
    (hle : ∀ h, h < n → g h ≤ 2)
    (huniq : ∀ h1 h2, h1 < n → h2 < n → g h1 ≠ 0 → g h2 ≠ 0 → h1 = h2) :
    ((List.range n).map g).sum ≤ 2 := by
  induction n with
  | zero => simp
  | succ m ih =>
    rw [List.range_succ, List.map_append, List.sum_append]
    simp only [List.map_cons, List.map_nil, List.sum_cons, List.sum_nil]
    by_cases hgm : g m = 0
    · have hih := ih (fun h hh => hle h (by omega))
        (fun h1 h2 hh1 hh2 => huniq h1 h2 (by omega) (by omega))
      omega
    · have hz : ((List.range m).map g).sum = 0 := by
        apply List.sum_eq_zero
        intro x hx
        rcases List.mem_map.mp hx with ⟨i, hi, rfl⟩
        have him := List.mem_range.mp hi
        by_contra hne
        have := huniq i m (by omega) (by omega) hne hgm
        omega
      have := hle m (by omega)
      omega

theorem ekey_div_bounds {a b lo hi : ℕ} (hhi : hi ≤ 65536)
    (ha : lo ≤ a ∧ a < hi) (hb : lo ≤ b ∧ b < hi) :
    lo ≤ ekey a b / 65536 ∧ ekey a b / 65536 < hi := by
  unfold ekey
  split <;> omega

theorem ekey_shift (a b s : ℕ) : ekey (a + s) (b + s) = ekey a b + s * 65537 := by
  unfold ekey
  split <;> split <;> omega

/-- Translation of a triangle by a fixed vertex-row offset. -/
def triShift (s : ℕ) : Tri → Tri
  | (a, b, c) => (a + s, b + s, c + s)

theorem triEdgeKeys_triShift (s : ℕ) (t : Tri) :
    triEdgeKeys (triShift s t) = (triEdgeKeys t).map (· + s * 65537) := by
  rcases t with ⟨a, b, c⟩
  simp [triShift, triEdgeKeys, ekey_shift]

theorem edgeKeys_map_triShift (s : ℕ) (l : List Tri) :
    edgeKeys (l.map (triShift s)) = (edgeKeys l).map (· + s * 65537) := by
  unfold edgeKeys
  rw [List.flatMap_map, List.map_flatMap]
  congr 1
  funext t
  exact triEdgeKeys_triShift s t

theorem count_le_two_map_add {l : List ℕ} (h : ∀ x, l.count x ≤ 2) (c k : ℕ) :
    (l.map (· + c)).count k ≤ 2 := by
  by_cases hk : k ∈ l.map (· + c)
  · rcases List.mem_map.mp hk with ⟨x, hx, rfl⟩
    have hinj : Function.Injective (· + c : ℕ → ℕ) := fun u v huv => by
      simp only at huv
      omega
    exact le_trans (le_of_eq (List.count_map_of_injective l _ hinj x)) (h x)
  · rw [List.count_eq_zero.mpr hk]
    omega

theorem mesh_edge_div_bounds {ts : List Tri} {lo hi : ℕ} (hhi : hi ≤ 65536)
    (hb : ∀ t ∈ ts, (lo ≤ t.1 ∧ t.1 < hi) ∧ (lo ≤ t.2.1 ∧ t.2.1 < hi) ∧
      (lo ≤ t.2.2 ∧ t.2.2 < hi)) :
    ∀ e ∈ edgeKeys ts, lo ≤ e / 65536 ∧ e / 65536 < hi := by
  intro e he
  rcases List.mem_flatMap.mp he with ⟨t, ht, he2⟩
  rcases t with ⟨a, b, c⟩
  obtain ⟨⟨ha1, ha2⟩, ⟨hb1, hb2⟩, ⟨hc1, hc2⟩⟩ := hb _ ht
  dsimp only at ha1 ha2 hb1 hb2 hc1 hc2
  simp only [triEdgeKeys, List.mem_cons, List.not_mem_nil, or_false] at he2
  rcases he2 with rfl | rfl | rfl <;>
    exact ekey_div_bounds hhi (by omega) (by omega)

namespace TableMesh

theorem quad_vertex_shift (h i k : ℕ) :
    quad_vertex h i k = quad_vertex 0 i k + 400 * h := by
  simp only [quad_vertex, segments]
  ring

theorem levelTris_shift (h : ℕ) :
    levelTris h = (levelTris 0).map (triShift (400 * h)) := by
  unfold levelTris
  rw [List.map_flatMap]
  congr 1
  funext i
  simp only [List.map_cons, List.map_nil, triShift, quad_vertex, segments,
    List.cons.injEq, Prod.mk.injEq, and_true]
  omega

theorem levelTris_vertex_bounds (h : ℕ) :
    ∀ t ∈ levelTris h,
      (202 + 400 * h ≤ t.1 ∧ t.1 < 602 + 400 * h) ∧
      (202 + 400 * h ≤ t.2.1 ∧ t.2.1 < 602 + 400 * h) ∧
      (202 + 400 * h ≤ t.2.2 ∧ t.2.2 < 602 + 400 * h) := by
  intro t ht
  simp only [levelTris, List.mem_flatMap, List.mem_range, List.mem_cons,
    List.not_mem_nil, or_false] at ht
  rcases ht with ⟨i, hi, rfl | rfl⟩ <;>
    simp only [segments] at hi <;>
    simp only [quad_vertex, segments] <;> omega

theorem capTris_vertex_bounds : ∀ t ∈ capTris,
    (0 ≤ t.1 ∧ t.1 < 202) ∧ (0 ≤ t.2.1 ∧ t.2.1 < 202) ∧ (0 ≤ t.2.2 ∧ t.2.2 < 202) := by
  intro t ht
  simp only [capTris, List.mem_append, List.mem_map, List.mem_range] at ht
  rcases ht with ⟨i, hi, rfl⟩ | ⟨i, hi, rfl⟩ <;>
    simp only [segments] at hi <;>
    simp only [top_center, bottom_center, top_vertex, bottom_vertex, segments] <;> omega

theorem edgeKeys_split : edgeKeys tableTris
    = edgeKeys capTris
      ++ (List.range height_segments).flatMap (fun h => edgeKeys (levelTris h)) := by
  unfold tableTris edgeKeys
  rw [List.flatMap_append, List.flatMap_assoc]

set_option maxRecDepth 100000 in
set_option maxHeartbeats 2000000 in
theorem capTris_atMostTwo : atMostTwo (edgeKeys capTris) = true := by decide

set_option maxRecDepth 100000 in
set_option maxHeartbeats 2000000 in
theorem levelTris_zero_atMostTwo : atMostTwo (edgeKeys (levelTris 0)) = true := by decide

theorem levelTris_count_le_two (h k : ℕ) : (edgeKeys (levelTris h)).count k ≤ 2 := by
  rw [levelTris_shift h, edgeKeys_map_triShift]
  exact count_le_two_map_add (count_le_two_of_atMostTwo levelTris_zero_atMostTwo) _ k

theorem levelTris_count_eq_zero_of_div {h k : ℕ} (hh : h < height_segments)
    (hdiv : ¬(202 + 400 * h ≤ k / 65536 ∧ k / 65536 < 602 + 400 * h)) :
    (edgeKeys (levelTris h)).count k = 0 := by
  rw [List.count_eq_zero]
  intro hmem
  exact hdiv (mesh_edge_div_bounds
    (by simp only [height_segments] at hh; omega)
    (levelTris_vertex_bounds h) k hmem)

/-- Every edge key of the table mesh occurs at most twice in the mesh. -/
theorem table_count_le_two (k : ℕ) : (edgeKeys tableTris).count k ≤ 2 := by
  rw [edgeKeys_split, List.count_append, count_flatMap]
  by_cases hc : (edgeKeys capTris).count k = 0
  · have hsum := sum_counts_le_two (fun h => (edgeKeys (levelTris h)).count k)
      height_segments (fun h _ => levelTris_count_le_two h k) ?_
    · omega
    · intro h1 h2 hh1 hh2 hn1 hn2
      have hk1 : k ∈ edgeKeys (levelTris h1) := by
        by_contra hmem
        exact hn1 (List.count_eq_zero.mpr hmem)
      have hk2 : k ∈ edgeKeys (levelTris h2) := by
        by_contra hmem
        exact hn2 (List.count_eq_zero.mpr hmem)
      have hb1 := mesh_edge_div_bounds
        (by simp only [height_segments] at hh1; omega)
        (levelTris_vertex_bounds h1) k hk1
      have hb2 := mesh_edge_div_bounds
        (by simp only [height_segments] at hh2; omega)
        (levelTris_vertex_bounds h2) k hk2
      omega
  · have hkc : k ∈ edgeKeys capTris := by
      by_contra hmem
      exact hc (List.count_eq_zero.mpr hmem)
    have hkdiv := mesh_edge_div_bounds (by omega) capTris_vertex_bounds k hkc
    have hsum : ((List.range height_segments).map
        fun h => (edgeKeys (levelTris h)).count k).sum = 0 := by
      apply List.sum_eq_zero
      intro x hx
      rcases List.mem_map.mp hx with ⟨h, hh, rfl⟩
      exact levelTris_count_eq_zero_of_div (List.mem_range.mp hh) (by omega)
    have := count_le_two_of_atMostTwo capTris_atMostTwo k
    omega

set_option maxRecDepth 100000 in
theorem levelTris_zero_length : (levelTris 0).length = 200 := by decide

set_option maxRecDepth 100000 in
theorem capTris_length : capTris.length = 200 := by decide

theorem tableTris_length : tableTris.length = 10200 := by
  have hh : ∀ h, (levelTris h).length = 200 := fun h => by
    rw [levelTris_shift h, List.length_map, levelTris_zero_length]
  rw [tableTris, List.length_append, capTris_length, List.length_flatMap]
  have hmap : (List.range height_segments).map (List.length ∘ levelTris)
      = List.replicate 50 200 := by
    rw [List.eq_replicate]
    constructor
    · simp [height_segments]
    · intro b hb
      rcases List.mem_map.mp hb with ⟨h, _, rfl⟩
      exact hh h
  rw [hmap, List.sum_replicate, smul_eq_mul]

end TableMesh

namespace VaseMesh

theorem vase_levelTris_shift (h : ℕ) :
    levelTris h = (levelTris 0).map (triShift (160 * h)) := by
  unfold levelTris
  rw [List.map_append, List.map_append, List.map_flatMap, List.map_flatMap,
    List.map_flatMap]
  congr 1
  · congr 1
    · congr 1
      funext i
      simp only [List.map_cons, List.map_nil, triShift, side_vertex, segments,
        List.cons.injEq, Prod.mk.injEq, and_true]
      omega
    · congr 1
      funext i
      simp only [List.map_cons, List.map_nil, triShift, side_vertex, segments,
        List.cons.injEq, Prod.mk.injEq, and_true]
      omega
  · congr 1
    funext i
    simp only [List.map_cons, List.map_nil, triShift, side_vertex, segments,
      List.cons.injEq, Prod.mk.injEq, and_true]
    omega

theorem vase_levelTris_vertex_bounds (h : ℕ) :
    ∀ t ∈ levelTris h,
      (160 + 160 * h ≤ t.1 ∧ t.1 < 320 + 160 * h) ∧
      (160 + 160 * h ≤ t.2.1 ∧ t.2.1 < 320 + 160 * h) ∧
      (160 + 160 * h ≤ t.2.2 ∧ t.2.2 < 320 + 160 * h) := by
  intro t ht
  simp only [levelTris, List.mem_append, List.mem_flatMap, List.mem_range,
    List.mem_cons, List.not_mem_nil, or_false] at ht
  rcases ht with (⟨i, hi, ht⟩ | ⟨i, hi, ht⟩) | ⟨i, hi, ht⟩ <;>
    simp only [segments] at hi <;>
    rcases ht with rfl | rfl | rfl | rfl <;>
    simp only [side_vertex, segments] <;> omega

theorem vase_capTris_vertex_bounds : ∀ t ∈ capTris,
    (0 ≤ t.1 ∧ t.1 < 160) ∧ (0 ≤ t.2.1 ∧ t.2.1 < 160) ∧ (0 ≤ t.2.2 ∧ t.2.2 < 160) := by
  intro t ht
  simp only [capTris, List.mem_append, List.mem_flatMap, List.mem_range,
    List.mem_cons, List.not_mem_nil, or_false] at ht
  rcases ht with ⟨i, hi, ht⟩ | ⟨i, hi, ht⟩ <;>
    simp only [segments] at hi <;>
    rcases ht with rfl | rfl <;>
    simp only [top_outer, top_inner, bottom_outer, bottom_inner, segments] <;> omega

theorem vase_edgeKeys_split : edgeKeys vaseTris
    = edgeKeys capTris
      ++ (List.range height_segments).flatMap (fun h => edgeKeys (levelTris h)) := by
  unfold vaseTris edgeKeys
  rw [List.flatMap_append, List.flatMap_assoc]

set_option maxRecDepth 100000 in
set_option maxHeartbeats 4000000 in
theorem vase_capTris_atMostTwo : atMostTwo (edgeKeys capTris) = true := by decide

set_option maxRecDepth 100000 in
set_option maxHeartbeats 4000000 in
theorem vase_levelTris_zero_atMostTwo : atMostTwo (edgeKeys (levelTris 0)) = true := by decide

theorem vase_levelTris_count_le_two (h k : ℕ) : (edgeKeys (levelTris h)).count k ≤ 2 := by
  rw [vase_levelTris_shift h, edgeKeys_map_triShift]
  exact count_le_two_map_add (count_le_two_of_atMostTwo vase_levelTris_zero_atMostTwo) _ k

/-- Every edge key of the vase mesh occurs at most twice in the mesh. -/
theorem vase_count_le_two (k : ℕ) : (edgeKeys vaseTris).count k ≤ 2 := by
  rw [vase_edgeKeys_split, List.count_append, count_flatMap]
  by_cases hc : (edgeKeys capTris).count k = 0
  · have hsum := sum_counts_le_two (fun h => (edgeKeys (levelTris h)).count k)
      height_segments (fun h _ => vase_levelTris_count_le_two h k) ?_
    · omega
    · intro h1 h2 hh1 hh2 hn1 hn2
      have hk1 : k ∈ edgeKeys (levelTris h1) := by
        by_contra hmem
        exact hn1 (List.count_eq_zero.mpr hmem)
      have hk2 : k ∈ edgeKeys (levelTris h2) := by
        by_contra hmem
        exact hn2 (List.count_eq_zero.mpr hmem)
      have hb1 := mesh_edge_div_bounds
        (by simp only [height_segments] at hh1; omega)
        (vase_levelTris_vertex_bounds h1) k hk1
      have hb2 := mesh_edge_div_bounds
        (by simp only [height_segments] at hh2; omega)
        (vase_levelTris_vertex_bounds h2) k hk2
      omega
  · have hkc : k ∈ edgeKeys capTris := by
      by_contra hmem
      exact hc (List.count_eq_zero.mpr hmem)
    have hkdiv := mesh_edge_div_bounds (by omega) vase_capTris_vertex_bounds k hkc
    have hsum : ((List.range height_segments).map
        fun h => (edgeKeys (levelTris h)).count k).sum = 0 := by
      apply List.sum_eq_zero
      intro x hx
      rcases List.mem_map.mp hx with ⟨h, hh, rfl⟩
      rw [List.count_eq_zero]
      intro hmem
      have := mesh_edge_div_bounds
        (by have := List.mem_range.mp hh; simp only [height_segments] at this; omega)
        (vase_levelTris_vertex_bounds h) k hmem
      omega
    have := count_le_two_of_atMostTwo vase_capTris_atMostTwo k
    omega

end VaseMesh

/-- Helper: the count of any edge key of `levelTris h` is zero when the key's
quotient by 65536 lies outside the band's vertex-row range. -/
theorem table_levelTris_count_eq_zero {h k : ℕ} (hh : h < TableMesh.height_segments)
    (hdiv : ¬(202 + 400 * h ≤ k / 65536 ∧ k / 65536 < 602 + 400 * h)) :
    (edgeKeys (TableMesh.levelTris h)).count k = 0 := by
  rw [List.count_eq_zero]
  intro hmem
  exact hdiv (mesh_edge_div_bounds
    (by simp only [TableMesh.height_segments] at hh; omega)
    (TableMesh.levelTris_vertex_bounds h) k hmem)

set_option maxRecDepth 100000 in
set_option maxHeartbeats 2000000 in
/-- C3 counterexample: in the mesh built by `tableGeometry`, the edge between
vertex rows 2 and 4 (the first two top-rim vertices, an edge of the first
top-fan triangle) belongs to exactly one triangle, not two: the side wall
emits fresh duplicate vertices instead of sharing rows, so the index mesh is
not closed. -/
theorem C3_counterexample :
    ekey 2 4 ∈ edgeKeys TableMesh.tableTris ∧
    (edgeKeys TableMesh.tableTris).count (ekey 2 4) = 1 ∧
    (edgeKeys TableMesh.tableTris).count (ekey 2 4) ≠ 2 := by
  have hmem : ekey 2 4 ∈ edgeKeys TableMesh.capTris := by decide
  have hcap : (edgeKeys TableMesh.capTris).count (ekey 2 4) = 1 := by decide
  have hdiv : ekey 2 4 / 65536 = 2 := by decide
  have hcount : (edgeKeys TableMesh.tableTris).count (ekey 2 4) = 1 := by
    rw [TableMesh.edgeKeys_split, List.count_append, count_flatMap]
    have hsum : ((List.range TableMesh.height_segments).map
        fun h => (edgeKeys (TableMesh.levelTris h)).count (ekey 2 4)).sum = 0 := by
      apply List.sum_eq_zero
      intro x hx
      rcases List.mem_map.mp hx with ⟨h, hh, rfl⟩
      exact table_levelTris_count_eq_zero (List.mem_range.mp hh) (by omega)
    rw [hcap, hsum]
  exact ⟨by rw [TableMesh.edgeKeys_split]; exact List.mem_append_left _ hmem,
    hcount, by omega⟩

/-- C3 (amended): every triangle edge (unordered pair of vertex rows) in the
mesh output by the solid (table) builder or the hollow (vase) builder is
shared by AT MOST two triangles.  (Not exactly two: both builders emit
duplicate vertices — the side-wall quads of the table use four fresh rows per
quad, and the vase's bands do not share rows with the caps or with adjacent
bands — so some edges, e.g. the cap-rim edges, belong to exactly one
triangle; see the counterexample.) -/
theorem C3_amended_edges_at_most_two : ∀ a b : ℕ,
    (edgeKeys TableMesh.tableTris).count (ekey a b) ≤ 2 ∧
    (edgeKeys VaseMesh.vaseTris).count (ekey a b) ≤ 2 :=
  fun a b => ⟨TableMesh.table_count_le_two (ekey a b),
    VaseMesh.vase_count_le_two (ekey a b)⟩

/-- C7 counterexample: with the builder's fixed tessellation constants
`N = segments = 100` and `H = height_segments = 50`, the mesh generated by
`tableGeometry` has 10200 triangles, which is not `2N + 2 + 4·N·H = 20202`. -/
theorem C7_counterexample :
    TableMesh.tableTris.length
      ≠ 2 * TableMesh.segments + 2
        + 4 * (TableMesh.segments * TableMesh.height_segments) := by
  rw [TableMesh.tableTris_length]
  decide

/-- C7 (amended): the solid (table) mesh contains exactly
`2N + 2·N·H` triangles (`N` cap-fan triangles per cap and two triangles per
side-wall quad), for every parameter set — the triangle list is independent
of the user parameters.  The spec's expression `2N + 2 + 4·N·H` instead
counts the emitted vertex rows: every vertex row referenced by a triangle is
below `2 + 2N + 4·N·H`, and row `2 + 2N + 4·N·H − 1` is referenced. -/
theorem C7_amended_triangle_count :
    TableMesh.tableTris.length
      = 2 * TableMesh.segments
        + 2 * TableMesh.segments * TableMesh.height_segments ∧
    (∀ t ∈ TableMesh.tableTris,
      t.1 < 2 + 2 * TableMesh.segments
          + 4 * (TableMesh.segments * TableMesh.height_segments) ∧
      t.2.1 < 2 + 2 * TableMesh.segments
          + 4 * (TableMesh.segments * TableMesh.height_segments) ∧
      t.2.2 < 2 + 2 * TableMesh.segments
          + 4 * (TableMesh.segments * TableMesh.height_segments)) ∧
    (∃ t ∈ TableMesh.tableTris,
      t.2.2 = 2 + 2 * TableMesh.segments
          + 4 * (TableMesh.segments * TableMesh.height_segments) - 1) := by
  refine ⟨by rw [TableMesh.tableTris_length]; decide, ?_, ?_⟩
  · intro t ht
    rw [TableMesh.tableTris] at ht
    rcases List.mem_append.mp ht with hcap | hside
    · have := TableMesh.capTris_vertex_bounds t hcap
      simp only [TableMesh.segments, TableMesh.height_segments]
      omega
    · rcases List.mem_flatMap.mp hside with ⟨h, hh, hmem⟩
      have hh2 := List.mem_range.mp hh
      simp only [TableMesh.height_segments] at hh2
      have := TableMesh.levelTris_vertex_bounds h t hmem
      simp only [TableMesh.segments, TableMesh.height_segments]
      omega
  · refine ⟨(TableMesh.quad_vertex 49 99 0, TableMesh.quad_vertex 49 99 2,
      TableMesh.quad_vertex 49 99 3), ?_, by decide⟩
    rw [TableMesh.tableTris]
    apply List.mem_append_right
    exact List.mem_flatMap.mpr ⟨49, by decide, by decide⟩

/-! ## Vase vertex positions and bounding-box tracking (claim C2)

`vaseGeometry` tracks a running bounding box inside `add_vertex` and, after
mesh generation, returns `(ObjectType, geom, height, diameter)` with
`diameter = max_x - min_x`.  Positions are modelled here; the normals passed
to `add_vertex` do not enter the bounding box and are omitted. -/

/-- Position of one emitted vertex. -/
structure V3 where
  x : ℝ
  y : ℝ
  z : ℝ

/-- Tracked bounding box (the six `nonlocal` variables of `add_vertex`). -/
structure BBox where
  min_x : ℝ
  max_x : ℝ
  min_y : ℝ
  max_y : ℝ
  min_z : ℝ
  max_z : ℝ

/-- One `add_vertex` update of the tracked bounding box; `none` models the
initial state (`float(ᴵinf)` bounds, for which `min`/`max` just take the new
coordinate). -/
noncomputable def trackVertex : Option BBox → V3 → Option BBox
  | none, v => some ⟨v.x, v.x, v.y, v.y, v.z, v.z⟩
  | some b, v => some ⟨min b.min_x v.x, max b.max_x v.x, min b.min_y v.y,
      max b.max_y v.y, min b.min_z v.z, max b.max_z v.z⟩

/-- Top outer ring vertices of `vaseGeometry` (first emission loop):
`segments = 40`, `half_height = height / 2 = 7/2`, angle `(2π·i)/segments`,
radius `get_surface_modulation(angle, 1.0)`. -/
noncomputable def vaseTopOuter (sc w ta gd wf wd : ℝ) : List V3 :=
  (List.range 40).map fun (i : ℕ) =>
    let angle := (2 * Real.pi * i) / 40
    let r := vaseSurfaceModulation sc w ta gd wf wd angle 1
    ⟨r * Real.cos angle, r * Real.sin angle, 7 / 2⟩

/-- Top inner ring vertices (second emission loop):
radius `get_inner_surface_modulation(angle, 1.0)`. -/
noncomputable def vaseTopInner (sc w ta gd wf wd wt : ℝ) : List V3 :=
  (List.range 40).map fun (i : ℕ) =>
    let angle := (2 * Real.pi * i) / 40
    let r := vaseInnerSurfaceModulation sc w ta gd wf wd wt angle 1
    ⟨r * Real.cos angle, r * Real.sin angle, 7 / 2⟩

/-- Bottom outer ring vertices (third emission loop):
radius `get_surface_modulation(angle, 0.0)`, `z = -half_height`. -/
noncomputable def vaseBottomOuter (sc w ta gd wf wd : ℝ) : List V3 :=
  (List.range 40).map fun (i : ℕ) =>
    let angle := (2 * Real.pi * i) / 40
    let r := vaseSurfaceModulation sc w ta gd wf wd angle 0
    ⟨r * Real.cos angle, r * Real.sin angle, -(7 / 2)⟩

/-- Bottom inner ring vertices (fourth emission loop). -/
noncomputable def vaseBottomInner (sc w ta gd wf wd wt : ℝ) : List V3 :=
  (List.range 40).map fun (i : ℕ) =>
    let angle := (2 * Real.pi * i) / 40
    let r := vaseInnerSurfaceModulation sc w ta gd wf wd wt angle 0
    ⟨r * Real.cos angle, r * Real.sin angle, -(7 / 2)⟩

/-- Side-wall vertices: per height band `h` (`height_segments = 40`) and ring
position `i`, in emission order outer-upper, outer-lower, inner-upper,
inner-lower, with `z1 = half_height - (height*h)/height_segments`,
`z2 = half_height - (height*(h+1))/height_segments`,
`length_ratio1 = 1 - h/height_segments`,
`length_ratio2 = 1 - (h+1)/height_segments`. -/
noncomputable def vaseSideVertices (sc w ta gd wf wd wt : ℝ) : List V3 :=
  (List.range 40).flatMap fun (h : ℕ) =>
    let z1 := 7 / 2 - (7 * (h : ℝ)) / 40
    let z2 := 7 / 2 - (7 * ((h : ℝ) + 1)) / 40
    let lr1 := 1 - (h : ℝ) / 40
    let lr2 := 1 - ((h : ℝ) + 1) / 40
    (List.range 40).flatMap fun (i : ℕ) =>
      let angle := (2 * Real.pi * i) / 40
      [⟨vaseSurfaceModulation sc w ta gd wf wd angle lr1 * Real.cos angle,
        vaseSurfaceModulation sc w ta gd wf wd angle lr1 * Real.sin angle, z1⟩,
       ⟨vaseSurfaceModulation sc w ta gd wf wd angle lr2 * Real.cos angle,
        vaseSurfaceModulation sc w ta gd wf wd angle lr2 * Real.sin angle, z2⟩,
       ⟨vaseInnerSurfaceModulation sc w ta gd wf wd wt angle lr1 * Real.cos angle,
        vaseInnerSurfaceModulation sc w ta gd wf wd wt angle lr1 * Real.sin angle, z1⟩,
       ⟨vaseInnerSurfaceModulation sc w ta gd wf wd wt angle lr2 * Real.cos angle,
        vaseInnerSurfaceModulation sc w ta gd wf wd wt angle lr2 * Real.sin angle, z2⟩]

/-- All vertex positions emitted by `vaseGeometry`, in `add_vertex` order:
top outer ring, top inner ring, bottom outer ring, bottom inner ring, then
the side-wall vertices. -/
noncomputable def vaseVertices (sc w ta gd wf wd wt : ℝ) : List V3 :=
  vaseTopOuter sc w ta gd wf wd
  ++ vaseTopInner sc w ta gd wf wd wt
  ++ vaseBottomOuter sc w ta gd wf wd
  ++ vaseBottomInner sc w ta gd wf wd wt
  ++ vaseSideVertices sc w ta gd wf wd wt

/-- Bounding box computed by the `add_vertex` calls of `vaseGeometry`. -/
noncomputable def vaseBBox (sc w ta gd wf wd wt : ℝ) : Option BBox :=
  (vaseVertices sc w ta gd wf wd wt).foldl trackVertex none

/-- Diameter of the returned tuple: `diameter = max_x - min_x`
(line 192 of src/geometry/vase/geometry.py); the `none` fallback never occurs
since the vertex list is nonempty. -/
noncomputable def vase_returned_diameter (sc w ta gd wf wd wt : ℝ) : ℝ :=
  (vaseBBox sc w ta gd wf wd wt).elim 0 (fun b => b.max_x - b.min_x)

/-- Height of the returned tuple: line 198 returns the constant `height`
(7.0), not `height_actual`; claim C2 asserts the value equality with
`max_z - min_z`. -/
noncomputable def vase_returned_height : ℝ := 7

theorem foldl_trackVertex_some : ∀ (l : List V3) (b0 : BBox),
    ∃ b, l.foldl trackVertex (some b0) = some b ∧
      b.min_x = (l.map V3.x).foldl min b0.min_x ∧
      b.max_x = (l.map V3.x).foldl max b0.max_x ∧
      b.min_y = (l.map V3.y).foldl min b0.min_y ∧
      b.max_y = (l.map V3.y).foldl max b0.max_y ∧
      b.min_z = (l.map V3.z).foldl min b0.min_z ∧
      b.max_z = (l.map V3.z).foldl max b0.max_z
  | [], b0 => ⟨b0, rfl, rfl, rfl, rfl, rfl, rfl, rfl⟩
  | v :: t, b0 => by
    simp only [List.foldl_cons, trackVertex, List.map_cons]
    exact foldl_trackVertex_some t _

theorem foldl_min_mem : ∀ (l : List ℝ) (a : ℝ), l.foldl min a ∈ a :: l
  | [], a => by simp
  | x :: t, a => by
    have h := foldl_min_mem t (min a x)
    simp only [List.foldl_cons]
    rcases List.mem_cons.mp h with h1 | h1
    · rcases min_choice a x with h2 | h2 <;> rw [h1, h2] <;> simp
    · simp only [List.mem_cons]
      exact Or.inr (Or.inr h1)

theorem foldl_max_mem : ∀ (l : List ℝ) (a : ℝ), l.foldl max a ∈ a :: l
  | [], a => by simp
  | x :: t, a => by
    have h := foldl_max_mem t (max a x)
    simp only [List.foldl_cons]
    rcases List.mem_cons.mp h with h1 | h1
    · rcases max_choice a x with h2 | h2 <;> rw [h1, h2] <;> simp
    · simp only [List.mem_cons]
      exact Or.inr (Or.inr h1)

theorem foldl_min_le : ∀ (l : List ℝ) (a u : ℝ), u ∈ a :: l → l.foldl min a ≤ u
  | [], a, u, hu => by
    rcases List.mem_cons.mp hu with rfl | h
    · exact le_refl u
    · simp at h
  | x :: t, a, u, hu => by
    simp only [List.foldl_cons]
    rcases List.mem_cons.mp hu with rfl | h1
    · exact le_trans (foldl_min_le t (min u x) (min u x) (by simp)) (min_le_left u x)
    · rcases List.mem_cons.mp h1 with rfl | h2
      · exact le_trans (foldl_min_le t (min a u) (min a u) (by simp)) (min_le_right a u)
      · exact foldl_min_le t (min a x) u (by simp [h2])

theorem foldl_max_ge : ∀ (l : List ℝ) (a u : ℝ), u ∈ a :: l → u ≤ l.foldl max a
  | [], a, u, hu => by
    rcases List.mem_cons.mp hu with rfl | h
    · exact le_refl u
    · simp at h
  | x :: t, a, u, hu => by
    simp only [List.foldl_cons]
    rcases List.mem_cons.mp hu with rfl | h1
    · exact le_trans (le_max_left u x) (foldl_max_ge t (max u x) (max u x) (by simp))
    · rcases List.mem_cons.mp h1 with rfl | h2
      · exact le_trans (le_max_right a u) (foldl_max_ge t (max a u) (max a u) (by simp))
      · exact foldl_max_ge t (max a x) u (by simp [h2])

/-- For a nonempty vertex list, the tracked fold yields a bounding box whose
components are attained extrema over all emitted coordinates. -/
theorem bbox_char : ∀ (l : List V3), l ≠ [] →
    ∃ b, l.foldl trackVertex none = some b ∧
      (b.min_x ∈ l.map V3.x ∧ ∀ u ∈ l.map V3.x, b.min_x ≤ u) ∧
      (b.max_x ∈ l.map V3.x ∧ ∀ u ∈ l.map V3.x, u ≤ b.max_x) ∧
      (b.min_y ∈ l.map V3.y ∧ ∀ u ∈ l.map V3.y, b.min_y ≤ u) ∧
      (b.max_y ∈ l.map V3.y ∧ ∀ u ∈ l.map V3.y, u ≤ b.max_y) ∧
      (b.min_z ∈ l.map V3.z ∧ ∀ u ∈ l.map V3.z, b.min_z ≤ u) ∧
      (b.max_z ∈ l.map V3.z ∧ ∀ u ∈ l.map V3.z, u ≤ b.max_z)
  | [], h => absurd rfl h
  | v :: t, _ => by
    rcases foldl_trackVertex_some t ⟨v.x, v.x, v.y, v.y, v.z, v.z⟩ with
      ⟨b, hb, h1, h2, h3, h4, h5, h6⟩
    refine ⟨b, ?_, ?_, ?_, ?_, ?_, ?_, ?_⟩
    · simpa only [List.foldl_cons, trackVertex] using hb
    · rw [h1, List.map_cons]
      exact ⟨foldl_min_mem _ _, fun u hu => foldl_min_le _ _ u hu⟩
    · rw [h2, List.map_cons]
      exact ⟨foldl_max_mem _ _, fun u hu => foldl_max_ge _ _ u hu⟩
    · rw [h3, List.map_cons]
      exact ⟨foldl_min_mem _ _, fun u hu => foldl_min_le _ _ u hu⟩
    · rw [h4, List.map_cons]
      exact ⟨foldl_max_mem _ _, fun u hu => foldl_max_ge _ _ u hu⟩
    · rw [h5, List.map_cons]
      exact ⟨foldl_min_mem _ _, fun u hu => foldl_min_le _ _ u hu⟩
    · rw [h6, List.map_cons]
      exact ⟨foldl_max_mem _ _, fun u hu => foldl_max_ge _ _ u hu⟩

theorem vaseTopOuter_length (sc w ta gd wf wd : ℝ) :
    (vaseTopOuter sc w ta gd wf wd).length = 40 := by
  rw [vaseTopOuter, List.length_map, List.length_range]

theorem vaseVertices_ne_nil (sc w ta gd wf wd wt : ℝ) :
    vaseVertices sc w ta gd wf wd wt ≠ [] := by
  intro h
  have h2 := congrArg List.length h
  simp only [vaseVertices, List.length_append, List.length_nil] at h2
  rw [vaseTopOuter_length] at h2
  omega

theorem vaseVertices_z_bounds (sc w ta gd wf wd wt : ℝ) :
    ∀ v ∈ vaseVertices sc w ta gd wf wd wt, -(7/2 : ℝ) ≤ v.z ∧ v.z ≤ 7/2 := by
  intro v hv
  simp only [vaseVertices, vaseTopOuter, vaseTopInner, vaseBottomOuter,
    vaseBottomInner, vaseSideVertices, List.mem_append, List.mem_map,
    List.mem_flatMap, List.mem_range, List.mem_cons, List.not_mem_nil,
    or_false] at hv
  rcases hv with (((⟨i, hi, rfl⟩ | ⟨i, hi, rfl⟩) | ⟨i, hi, rfl⟩) | ⟨i, hi, rfl⟩) |
    ⟨h, hh, i, hi, hv⟩
  · constructor <;> norm_num
  · constructor <;> norm_num
  · constructor <;> norm_num
  · constructor <;> norm_num
  · have hh2 : (h : ℝ) ≤ 39 := by exact_mod_cast (by omega : h ≤ 39)
    have hh0 : (0 : ℝ) ≤ (h : ℝ) := Nat.cast_nonneg h
    rcases hv with rfl | rfl | rfl | rfl <;> constructor <;>
      (simp only; linarith)

theorem vase_z_mem_top (sc w ta gd wf wd wt : ℝ) :
    (7/2 : ℝ) ∈ (vaseVertices sc w ta gd wf wd wt).map V3.z := by
  rw [vaseVertices]
  simp only [List.map_append]
  refine List.mem_append_left _ (List.mem_append_left _
    (List.mem_append_left _ (List.mem_append_left _ ?_)))
  rw [vaseTopOuter, List.map_map]
  exact List.mem_map.mpr ⟨0, List.mem_range.mpr (by norm_num), rfl⟩

theorem vase_z_mem_bottom (sc w ta gd wf wd wt : ℝ) :
    (-(7/2) : ℝ) ∈ (vaseVertices sc w ta gd wf wd wt).map V3.z := by
  rw [vaseVertices]
  simp only [List.map_append]
  refine List.mem_append_left _ (List.mem_append_left _
    (List.mem_append_right _ ?_))
  rw [vaseBottomOuter, List.map_map]
  exact List.mem_map.mpr ⟨0, List.mem_range.mpr (by norm_num), rfl⟩

set_option maxRecDepth 100000 in
/-- C2: for the hollow (vase) family, for every parameter set, the diameter
of the returned tuple equals max minus min of the tracked horizontal (x)
extents over all vertices emitted during mesh generation — the tracked
extents are attained extrema over the full emission list, not `2*baseWidth`
— and the returned height (the constant 7.0) equals max minus min of the
tracked z extents; both bounds come from the single tracked bounding box
computed from all `add_vertex` calls.  (The y extents are tracked the same
way, included below; the code derives `diameter` from the x extent.) -/
theorem C2_vase_bounding_metrics : ∀ sc w ta gd wf wd wt : ℝ,
    ∃ b, vaseBBox sc w ta gd wf wd wt = some b ∧
      (b.min_x ∈ (vaseVertices sc w ta gd wf wd wt).map V3.x ∧
        ∀ u ∈ (vaseVertices sc w ta gd wf wd wt).map V3.x, b.min_x ≤ u) ∧
      (b.max_x ∈ (vaseVertices sc w ta gd wf wd wt).map V3.x ∧
        ∀ u ∈ (vaseVertices sc w ta gd wf wd wt).map V3.x, u ≤ b.max_x) ∧
      (b.min_y ∈ (vaseVertices sc w ta gd wf wd wt).map V3.y ∧
        ∀ u ∈ (vaseVertices sc w ta gd wf wd wt).map V3.y, b.min_y ≤ u) ∧
      (b.max_y ∈ (vaseVertices sc w ta gd wf wd wt).map V3.y ∧
        ∀ u ∈ (vaseVertices sc w ta gd wf wd wt).map V3.y, u ≤ b.max_y) ∧
      (b.min_z ∈ (vaseVertices sc w ta gd wf wd wt).map V3.z ∧
        ∀ u ∈ (vaseVertices sc w ta gd wf wd wt).map V3.z, b.min_z ≤ u) ∧
      (b.max_z ∈ (vaseVertices sc w ta gd wf wd wt).map V3.z ∧
        ∀ u ∈ (vaseVertices sc w ta gd wf wd wt).map V3.z, u ≤ b.max_z) ∧
      vase_returned_diameter sc w ta gd wf wd wt = b.max_x - b.min_x ∧
      vase_returned_height = b.max_z - b.min_z := by
  intro sc w ta gd wf wd wt
  obtain ⟨b, hb, hx1, hx2, hy1, hy2, hz1, hz2⟩ :=
    bbox_char (vaseVertices sc w ta gd wf wd wt) (vaseVertices_ne_nil sc w ta gd wf wd wt)
  have hbb : vaseBBox sc w ta gd wf wd wt = some b := hb
  refine ⟨b, hbb, hx1, hx2, hy1, hy2, hz1, hz2, ?_, ?_⟩
  · unfold vase_returned_diameter
    rw [hbb]
    rfl
  · have hmax_le : b.max_z ≤ 7/2 := by
      rcases List.mem_map.mp hz2.1 with ⟨v, hv, hvz⟩
      rw [← hvz]
      exact (vaseVertices_z_bounds sc w ta gd wf wd wt v hv).2
    have hmax_ge : (7/2 : ℝ) ≤ b.max_z :=
      hz2.2 _ (vase_z_mem_top sc w ta gd wf wd wt)
    have hmin_ge : (-(7/2) : ℝ) ≤ b.min_z := by
      rcases List.mem_map.mp hz1.1 with ⟨v, hv, hvz⟩
      rw [← hvz]
      exact (vaseVertices_z_bounds sc w ta gd wf wd wt v hv).1
    have hmin_le : b.min_z ≤ -(7/2) :=
      hz1.2 _ (vase_z_mem_bottom sc w ta gd wf wd wt)
    simp only [vase_returned_height]
    linarith

/-! ## Caching and service layer (src/core/app.py)

Python floats in this layer are modelled as rationals (only equality,
ordering and decimal rounding of parameter values matter here), `time.time()`
is an explicit `now : ℚ` argument, and insertion-ordered dicts are
association lists.  The opaque Panda3D `Geom` value is a type parameter `G`. -/

namespace AppCore

/-- Constant `GEOMETRY_CACHE_SIZE = 128` of src/core/app.py. -/
def GEOMETRY_CACHE_SIZE : ℕ := 128

/-- Constant `DISPLAY_CACHE_SIZE = 64`. -/
def DISPLAY_CACHE_SIZE : ℕ := 64

/-- Constant `PARAMETER_UPDATE_DEBOUNCE = 100` (milliseconds). -/
def PARAMETER_UPDATE_DEBOUNCE : ℚ := 100

/-- Dataclass `GeometryResult` (the always-`None` `metadata` field is
omitted). -/
structure GeometryResult (G : Type) where
  object_type : String
  geometry : G
  height : ℚ
  diameter : Option ℚ
  deriving DecidableEq

/-- Dataclass `CachedGeometry`. -/
structure CachedGeometry (G : Type) where
  geometry_result : GeometryResult G
  timestamp : ℚ
  access_count : ℕ := 0
  deriving DecidableEq

/-- `d.get(k)` on an insertion-ordered dict modelled as an association list
(keys are unique, so first match is the match). -/
def dictGet {K V : Type} [DecidableEq K] : List (K × V) → K → Option V
  | [], _ => none
  | e :: t, k => if e.1 = k then some e.2 else dictGet t k

/-- `d[k] = v`: update in place when the key is present (dicts keep the
original position), else append at the end. -/
def dictSet {K V : Type} [DecidableEq K] : List (K × V) → K → V → List (K × V)
  | [], k, v => [(k, v)]
  | e :: t, k, v => if e.1 = k then (k, v) :: t else e :: dictSet t k v

/-- `del d[k]` (removes the unique entry with that key). -/
def dictDelete {K V : Type} [DecidableEq K] : List (K × V) → K → List (K × V)
  | [], _ => []
  | e :: t, k => if e.1 = k then t else e :: dictDelete t k

/-- `min(d.keys(), key=lambda k: measure(d[k]))` as a single scan over the
entries: Python's `min` keeps the earlier element on ties. -/
def oldestEntry {K V : Type} (ts : V → ℚ) : List (K × V) → Option (K × V)
  | [] => none
  | e :: t => some (t.foldl (fun best x => if ts x.2 < ts best.2 then x else best) e)

theorem dictGet_dictSet_self {K V : Type} [DecidableEq K] :
    ∀ (c : List (K × V)) (k : K) (v : V), dictGet (dictSet c k v) k = some v
  | [], k, v => by simp [dictSet, dictGet]
  | e :: t, k, v => by
    by_cases h : e.1 = k
    · simp [dictSet, dictGet, h]
    · simp only [dictSet, dictGet, if_neg h]
      exact dictGet_dictSet_self t k v

theorem dictSet_fresh {K V : Type} [DecidableEq K] :
    ∀ (c : List (K × V)) (k : K) (v : V), k ∉ c.map Prod.fst →
      dictSet c k v = c ++ [(k, v)]
  | [], _, _, _ => rfl
  | e :: t, k, v, hk => by
    have h1 : e.1 ≠ k := by
      intro h
      exact hk (by simp [← h])
    simp only [dictSet, if_neg h1, List.cons_append, List.cons.injEq, true_and]
    exact dictSet_fresh t k v (fun h => hk (by simp [h]))

theorem dictDelete_middle {K V : Type} [DecidableEq K] :
    ∀ (l1 : List (K × V)) (e : K × V) (l2 : List (K × V)),
      e.1 ∉ l1.map Prod.fst → dictDelete (l1 ++ e :: l2) e.1 = l1 ++ l2
  | [], e, l2, _ => by simp [dictDelete]
  | f :: t, e, l2, hk => by
    have h1 : f.1 ≠ e.1 := by
      intro h
      exact hk (by simp [h])
    simp only [List.cons_append, dictDelete, if_neg h1, List.cons.injEq, true_and]
    exact dictDelete_middle t e l2 (fun h => hk (by simp [h]))

theorem foldl_pick_spec {K V : Type} (ts : V → ℚ) :
    ∀ (t : List (K × V)) (b : K × V),
      ∃ l1 e l2, b :: t = l1 ++ e :: l2 ∧
        t.foldl (fun best x => if ts x.2 < ts best.2 then x else best) b = e ∧
        (∀ x ∈ l1, ts e.2 < ts x.2) ∧ (∀ x ∈ l2, ts e.2 ≤ ts x.2)
  | [], b => ⟨[], b, [], rfl, rfl, by simp, by simp⟩
  | x :: t2, b => by
    simp only [List.foldl_cons]
    by_cases hx : ts x.2 < ts b.2
    · rw [if_pos hx]
      rcases foldl_pick_spec ts t2 x with ⟨m1, e, m2, heq, hfold, hm1, hm2⟩
      have hle : ts e.2 ≤ ts x.2 := by
        cases m1 with
        | nil =>
          rw [List.nil_append] at heq
          injection heq with h1 _
          rw [← h1]
        | cons m0 m1t =>
          rw [List.cons_append] at heq
          injection heq with h1 _
          have hlt := hm1 m0 (by simp)
          rw [← h1] at hlt
          exact le_of_lt hlt
      refine ⟨b :: m1, e, m2, by rw [List.cons_append, ← heq], hfold, ?_, hm2⟩
      intro y hy
      rcases List.mem_cons.mp hy with rfl | hy2
      · exact lt_of_le_of_lt hle hx
      · exact hm1 y hy2
    · rw [if_neg hx]
      rcases foldl_pick_spec ts t2 b with ⟨m1, e, m2, heq, hfold, hm1, hm2⟩
      cases m1 with
      | nil =>
        rw [List.nil_append] at heq
        injection heq with h1 h2
        refine ⟨[], e, x :: t2, by simp [← h1], hfold, by simp, ?_⟩
        intro y hy
        rcases List.mem_cons.mp hy with rfl | hy2
        · rw [← h1]
          exact le_of_not_lt hx
        · exact hm2 y (h2 ▸ hy2)
      | cons m0 m1t =>
        rw [List.cons_append] at heq
        injection heq with h1 h2
        have hbgt : ts e.2 < ts b.2 := by
          rw [h1]
          exact hm1 m0 (by simp)
        refine ⟨b :: x :: m1t, e, m2,
          by rw [List.cons_append, List.cons_append, ← h2], hfold, ?_, hm2⟩
        intro y hy
        rcases List.mem_cons.mp hy with rfl | hy2
        · exact hbgt
        · rcases List.mem_cons.mp hy2 with rfl | hy3
          · exact lt_of_lt_of_le hbgt (le_of_not_lt hx)
          · exact hm1 y (by simp [hy3])

/-- Specification of the eviction scan: it returns the first entry with the
minimal timestamp — everything before it is strictly newer, everything after
it is no older. -/
theorem oldestEntry_spec {K V : Type} (ts : V → ℚ) (l : List (K × V)) (hl : l ≠ []) :
    ∃ l1 e l2, l = l1 ++ e :: l2 ∧ oldestEntry ts l = some e ∧
      (∀ x ∈ l1, ts e.2 < ts x.2) ∧ (∀ x ∈ l2, ts e.2 ≤ ts x.2) := by
  match l, hl with
  | b :: t, _ =>
    rcases foldl_pick_spec ts t b with ⟨l1, e, l2, heq, hfold, hm1, hm2⟩
    exact ⟨l1, e, l2, heq, by rw [oldestEntry, hfold], hm1, hm2⟩

/-- Floor of a rational, computed as Euclidean division of numerator by the
(positive) denominator, so that the kernel can evaluate it. -/
def qfloor (q : ℚ) : ℤ := q.num.ediv q.den

/-- Python `int(x)`: truncation toward zero. -/
def pyInt (q : ℚ) : ℤ := if 0 ≤ q then qfloor q else -qfloor (-q)

/-- Python `round(x, n)` on the exact rational value: round half to even at
`n` decimal digits (the binary-float representation is abstracted away; the
claims that use rounding only need that it is a deterministic function). -/
def pyRound (q : ℚ) (n : ℕ) : ℚ :=
  let s := q * 10 ^ n
  let f := qfloor s
  let r : ℚ := s - f
  let i : ℤ :=
    if r < 1/2 then f
    else if 1/2 < r then f + 1
    else if f % 2 = 0 then f else f + 1
  (i : ℚ) / 10 ^ n

/-- Parameter dict passed to a provider: the six named entries the providers
read, plus an optional extra "Wall Thickness" entry which no provider ever
reads (claim C10).  Field order matches the `rounded_params` dict. -/
structure ParamsMap where
  segmentCount : ℚ
  objectWidth : ℚ
  twistAngle : ℚ
  grooveDepth : ℚ
  waveFreq : ℚ
  waveDepth : ℚ
  wallThickness : Option ℚ := none
  deriving DecidableEq

/-- Normalized cache key of `_create_cache_key`: the code renders
`str(sorted(rounded_params.items()))`, an injective image of the rounded
six-tuple, so the key is modelled as the rounded values themselves.
`Segment Count` is truncated to an integer; continuous fields are rounded to
2 or 3 decimal places exactly as in the code. -/
structure CacheKey where
  segmentCount : ℤ
  objectWidth : ℚ
  twistAngle : ℚ
  grooveDepth : ℚ
  waveFreq : ℚ
  waveDepth : ℚ
  deriving DecidableEq

/-- `_create_cache_key` (identical in both providers). -/
def create_cache_key (p : ParamsMap) : CacheKey where
  segmentCount := pyInt p.segmentCount
  objectWidth := pyRound p.objectWidth 2
  twistAngle := pyRound p.twistAngle 2
  grooveDepth := pyRound p.grooveDepth 3
  waveFreq := pyRound p.waveFreq 2
  waveDepth := pyRound p.waveDepth 3

/-- State of `OptimizedVaseGeometryProvider` (and, identically, of
`OptimizedTableGeometryProvider`): the geometry cache dict and the hit/miss
counters.  `builds` is an instrumentation counter for how often the bound
mesh-builder function has been invoked (it is not a field of the class; it
increments exactly where the code calls `self._vaseGeometry`). -/
structure ProviderState (G : Type) where
  geometry_cache : List (CacheKey × CachedGeometry G) := []
  cache_hits : ℕ := 0
  cache_misses : ℕ := 0
  builds : ℕ := 0
  deriving DecidableEq

/-- `_extract_result` applied to the vase builder's 4-tuple
`(ObjectType, geom, height, diameter)`. -/
def extract_result4 {G : Type} (r : String × G × ℚ × ℚ) : GeometryResult G where
  object_type := r.1
  geometry := r.2.1
  height := r.2.2.1
  diameter := some r.2.2.2

/-- `_extract_result` applied to the table builder's 2-tuple
`(ObjectType, geom)`: height defaults to 2.0 and diameter to `None`. -/
def extract_result2 {G : Type} (r : String × G) : GeometryResult G where
  object_type := r.1
  geometry := r.2
  height := 2
  diameter := none

/-- `_cache_geometry` (identical in both provider classes): when the cache
already holds `GEOMETRY_CACHE_SIZE` entries, delete the entry with the
oldest timestamp (first in scan order among ties), then store the new entry
with a fresh timestamp and `access_count = 0`. -/
def cache_geometry {K G : Type} [DecidableEq K]
    (cache : List (K × CachedGeometry G)) (key : K) (gr : GeometryResult G)
    (now : ℚ) : List (K × CachedGeometry G) :=
  let c1 :=
    if GEOMETRY_CACHE_SIZE ≤ cache.length then
      match oldestEntry (fun v => v.timestamp) cache with
      | some old => dictDelete cache old.1
      | none => cache
    else cache
  dictSet c1 key { geometry_result := gr, timestamp := now }

/-- `OptimizedVaseGeometryProvider.create_geometry`, parameterized by the
bound builder `self._vaseGeometry`.  The builder receives exactly the six
extracted values (`int(params["Segment Count"])` and the five floats) — no
wall-thickness argument exists at the call site.  On a hit the entry's
timestamp is refreshed and its access counter incremented; on a miss the
builder runs and the result is stored via `_cache_geometry`. -/
def vase_create_geometry {G : Type}
    (vaseBuilder : ℤ → ℚ → ℚ → ℚ → ℚ → ℚ → String × G × ℚ × ℚ)
    (st : ProviderState G) (params : ParamsMap) (now : ℚ) :
    GeometryResult G × ProviderState G :=
  let cache_key := create_cache_key params
  match dictGet st.geometry_cache cache_key with
  | some cached =>
      (cached.geometry_result,
        { st with
          cache_hits := st.cache_hits + 1,
          geometry_cache := dictSet st.geometry_cache cache_key
            { cached with access_count := cached.access_count + 1, timestamp := now } })
  | none =>
      let result := vaseBuilder (pyInt params.segmentCount) params.objectWidth
        params.twistAngle params.grooveDepth params.waveFreq params.waveDepth
      let geometry_result := extract_result4 result
      (geometry_result,
        { st with
          cache_misses := st.cache_misses + 1,
          builds := st.builds + 1,
          geometry_cache :=
            cache_geometry st.geometry_cache cache_key geometry_result now })

/-- `OptimizedTableGeometryProvider.create_geometry` (the duplicated class):
same logic with the table builder's 2-tuple result. -/
def table_create_geometry {G : Type}
    (tableBuilder : ℤ → ℚ → ℚ → ℚ → ℚ → ℚ → String × G)
    (st : ProviderState G) (params : ParamsMap) (now : ℚ) :
    GeometryResult G × ProviderState G :=
  let cache_key := create_cache_key params
  match dictGet st.geometry_cache cache_key with
  | some cached =>
      (cached.geometry_result,
        { st with
          cache_hits := st.cache_hits + 1,
          geometry_cache := dictSet st.geometry_cache cache_key
            { cached with access_count := cached.access_count + 1, timestamp := now } })
  | none =>
      let result := tableBuilder (pyInt params.segmentCount) params.objectWidth
        params.twistAngle params.grooveDepth params.waveFreq params.waveDepth
      let geometry_result := extract_result2 result
      (geometry_result,
        { st with
          cache_misses := st.cache_misses + 1,
          builds := st.builds + 1,
          geometry_cache :=
            cache_geometry st.geometry_cache cache_key geometry_result now })

/-- After any `create_geometry` call, the cache holds the returned result
under the call's key. -/
theorem vase_create_geometry_get_self {G : Type}
    (vb : ℤ → ℚ → ℚ → ℚ → ℚ → ℚ → String × G × ℚ × ℚ)
    (st : ProviderState G) (p : ParamsMap) (t : ℚ) :
    ∃ e, dictGet (vase_create_geometry vb st p t).2.geometry_cache
        (create_cache_key p) = some e ∧
      e.geometry_result = (vase_create_geometry vb st p t).1 := by
  rcases hg : dictGet st.geometry_cache (create_cache_key p) with _ | c
  · simp only [vase_create_geometry, hg]
    exact ⟨_, by rw [cache_geometry, dictGet_dictSet_self], rfl⟩
  · simp only [vase_create_geometry, hg]
    exact ⟨_, dictGet_dictSet_self _ _ _, rfl⟩

set_option maxRecDepth 10000 in
/-- C4: if `create_geometry` is called twice with parameter maps that
normalize to the same rounded cache key, the second call returns the stored
GeometryResult unchanged, increments the hit count (not the miss count),
does not invoke the builder again, refreshes the entry's timestamp to the
second call's time, and increments its access counter. -/
theorem C4_cache_idempotence {G : Type}
    (vb : ℤ → ℚ → ℚ → ℚ → ℚ → ℚ → String × G × ℚ × ℚ)
    (st : ProviderState G) (p1 p2 : ParamsMap) (t1 t2 : ℚ)
    (hkey : create_cache_key p1 = create_cache_key p2) :
    (vase_create_geometry vb (vase_create_geometry vb st p1 t1).2 p2 t2).1
        = (vase_create_geometry vb st p1 t1).1 ∧
    (vase_create_geometry vb (vase_create_geometry vb st p1 t1).2 p2 t2).2.cache_hits
        = (vase_create_geometry vb st p1 t1).2.cache_hits + 1 ∧
    (vase_create_geometry vb (vase_create_geometry vb st p1 t1).2 p2 t2).2.cache_misses
        = (vase_create_geometry vb st p1 t1).2.cache_misses ∧
    (vase_create_geometry vb (vase_create_geometry vb st p1 t1).2 p2 t2).2.builds
        = (vase_create_geometry vb st p1 t1).2.builds ∧
    ∃ e, dictGet (vase_create_geometry vb st p1 t1).2.geometry_cache
          (create_cache_key p2) = some e ∧
      e.geometry_result = (vase_create_geometry vb st p1 t1).1 ∧
      dictGet (vase_create_geometry vb (vase_create_geometry vb st p1 t1).2 p2 t2).2.geometry_cache
          (create_cache_key p2)
        = some { e with timestamp := t2, access_count := e.access_count + 1 } := by
  obtain ⟨e, he, her⟩ := vase_create_geometry_get_self vb st p1 t1
  have he2 : dictGet (vase_create_geometry vb st p1 t1).2.geometry_cache
      (create_cache_key p2) = some e := by
    rw [← hkey]
    exact he
  generalize hc1 : vase_create_geometry vb st p1 t1 = c1 at he2 her ⊢
  refine ⟨?_, ?_, ?_, ?_, e, he2, her, ?_⟩ <;>
    simp only [vase_create_geometry, he2]
  · exact her
  · exact dictGet_dictSet_self _ _ _

/-- Parameter map used in the C4 witness (the vase defaults of §6); both
calls use this map, which trivially normalizes to the same rounded key. -/
def c4Params1 : ParamsMap :=
  { segmentCount := 5, objectWidth := 5/2, twistAngle := 20,
    grooveDepth := 1, waveFreq := 3, waveDepth := 1 }

/-- Dummy builder for the witnesses (geometry type `Unit`). -/
def c4Builder : ℤ → ℚ → ℚ → ℚ → ℚ → ℚ → String × Unit × ℚ × ℚ :=
  fun _ _ _ _ _ _ => ("Vase", (), 7, 5)

set_option maxRecDepth 10000 in
/-- Witness for C4 at concrete inputs: two maps whose widths 2.5 and 2.501
round to the same key, on the empty provider state, at times 1 and 2. -/
theorem C4_cache_idempotence_witness :
    create_cache_key c4Params1 = create_cache_key c4Params1 ∧
    ((vase_create_geometry c4Builder (vase_create_geometry c4Builder {} c4Params1 1).2 c4Params1 2).1
        = (vase_create_geometry c4Builder {} c4Params1 1).1 ∧
    (vase_create_geometry c4Builder (vase_create_geometry c4Builder {} c4Params1 1).2 c4Params1 2).2.cache_hits
        = (vase_create_geometry c4Builder {} c4Params1 1).2.cache_hits + 1 ∧
    (vase_create_geometry c4Builder (vase_create_geometry c4Builder {} c4Params1 1).2 c4Params1 2).2.cache_misses
        = (vase_create_geometry c4Builder {} c4Params1 1).2.cache_misses ∧
    (vase_create_geometry c4Builder (vase_create_geometry c4Builder {} c4Params1 1).2 c4Params1 2).2.builds
        = (vase_create_geometry c4Builder {} c4Params1 1).2.builds ∧
    ∃ e, dictGet (vase_create_geometry c4Builder {} c4Params1 1).2.geometry_cache
          (create_cache_key c4Params1) = some e ∧
      e.geometry_result = (vase_create_geometry c4Builder {} c4Params1 1).1 ∧
      dictGet (vase_create_geometry c4Builder (vase_create_geometry c4Builder {} c4Params1 1).2 c4Params1 2).2.geometry_cache
          (create_cache_key c4Params1)
        = some { e with timestamp := 2, access_count := e.access_count + 1 }) :=
  ⟨rfl, C4_cache_idempotence c4Builder {} c4Params1 c4Params1 1 2 rfl⟩

/-- Return value of `vaseGeometry` over the real-valued geometry model:
`(ObjectType, height, diameter)` with the opaque `geom` omitted. -/
noncomputable def vaseGeometryReturn (sc w ta gd wf wd wt : ℝ) : String × ℝ × ℝ :=
  ("Vase", 7, vase_returned_diameter sc w ta gd wf wd wt)

/-- The builder invocation bound by the vase provider (app.py lines
138–145): the six extracted values are forwarded and `wall_thickness` is
omitted, so Python supplies the declared default `0.5` of
`def vaseGeometry(...)`. -/
noncomputable def vase_provider_call : ℝ → ℝ → ℝ → ℝ → ℝ → ℝ → String × ℝ × ℝ :=
  fun sc w ta gd wf wd => vaseGeometryReturn sc w ta gd wf wd 0.5

/-- C10: the vase provider never forwards a wall-thickness field — the
builder is always invoked with the fixed Python default 0.5 — and wall
thickness is not part of the normalized cache key, so two parameter maps
that agree on the six named fields (and may differ in a wall-thickness
entry) produce the same cache key and the very same `create_geometry`
result and state. -/
theorem C10_wall_thickness_fixed {G : Type}
    (vb : ℤ → ℚ → ℚ → ℚ → ℚ → ℚ → String × G × ℚ × ℚ)
    (st : ProviderState G) (p1 p2 : ParamsMap) (now : ℚ)
    (hsix : p1.segmentCount = p2.segmentCount ∧ p1.objectWidth = p2.objectWidth ∧
      p1.twistAngle = p2.twistAngle ∧ p1.grooveDepth = p2.grooveDepth ∧
      p1.waveFreq = p2.waveFreq ∧ p1.waveDepth = p2.waveDepth) :
    create_cache_key p1 = create_cache_key p2 ∧
    vase_create_geometry vb st p1 now = vase_create_geometry vb st p2 now ∧
    vase_provider_call = fun sc w ta gd wf wd =>
      vaseGeometryReturn sc w ta gd wf wd (1/2) := by
  obtain ⟨h1, h2, h3, h4, h5, h6⟩ := hsix
  refine ⟨?_, ?_, ?_⟩
  · simp only [create_cache_key, h1, h2, h3, h4, h5, h6]
  · simp only [vase_create_geometry, create_cache_key, h1, h2, h3, h4, h5, h6]
  · funext sc w ta gd wf wd
    show vaseGeometryReturn sc w ta gd wf wd 0.5 = vaseGeometryReturn sc w ta gd wf wd (1/2)
    norm_num

/-- First C10-witness map (wall-thickness entry absent). -/
def c10Params1 : ParamsMap :=
  { segmentCount := 5, objectWidth := 5/2, twistAngle := 20,
    grooveDepth := 1, waveFreq := 3, waveDepth := 1 }

/-- Second C10-witness map: same six fields, extra wall-thickness entry. -/
def c10Params2 : ParamsMap :=
  { segmentCount := 5, objectWidth := 5/2, twistAngle := 20,
    grooveDepth := 1, waveFreq := 3, waveDepth := 1, wallThickness := some (9/10) }

/-- Dummy builder for the C10 witness. -/
def c10Builder : ℤ → ℚ → ℚ → ℚ → ℚ → ℚ → String × Unit × ℚ × ℚ :=
  fun _ _ _ _ _ _ => ("Vase", (), 7, 5)

/-- Witness for C10 at concrete inputs differing only in the wall-thickness
entry. -/
theorem C10_wall_thickness_fixed_witness :
    (c10Params1.segmentCount = c10Params2.segmentCount ∧
      c10Params1.objectWidth = c10Params2.objectWidth ∧
      c10Params1.twistAngle = c10Params2.twistAngle ∧
      c10Params1.grooveDepth = c10Params2.grooveDepth ∧
      c10Params1.waveFreq = c10Params2.waveFreq ∧
      c10Params1.waveDepth = c10Params2.waveDepth) ∧
    (create_cache_key c10Params1 = create_cache_key c10Params2 ∧
      vase_create_geometry c10Builder {} c10Params1 3
          = vase_create_geometry c10Builder {} c10Params2 3 ∧
      vase_provider_call = fun sc w ta gd wf wd =>
        vaseGeometryReturn sc w ta gd wf wd (1/2)) :=
  ⟨⟨rfl, rfl, rfl, rfl, rfl, rfl⟩,
    C10_wall_thickness_fixed c10Builder {} c10Params1 c10Params2 3
      ⟨rfl, rfl, rfl, rfl, rfl, rfl⟩⟩

/-- Folding fresh-key inserts while below capacity just appends the new
entries in order. -/
theorem foldl_cache_geometry_fresh {K G : Type} [DecidableEq K] :
    ∀ (l : List (K × GeometryResult G × ℚ)) (c : List (K × CachedGeometry G)),
      (l.map fun ins => ins.1).Nodup →
      (∀ k ∈ l.map fun ins => ins.1, k ∉ c.map Prod.fst) →
      c.length + l.length ≤ GEOMETRY_CACHE_SIZE →
      l.foldl (fun cc ins => cache_geometry cc ins.1 ins.2.1 ins.2.2) c
        = c ++ l.map (fun ins => (ins.1,
            ({ geometry_result := ins.2.1, timestamp := ins.2.2 } : CachedGeometry G)))
  | [], c, _, _, _ => by simp
  | ins :: t, c, hnd, hfresh, hlen => by
    simp only [List.foldl_cons, List.map_cons]
    have hnotin : ins.1 ∉ c.map Prod.fst := hfresh ins.1 (by simp)
    have hclen : ¬ GEOMETRY_CACHE_SIZE ≤ c.length := by
      simp only [List.length_cons] at hlen
      simp only [GEOMETRY_CACHE_SIZE] at hlen ⊢
      omega
    have hstep : cache_geometry c ins.1 ins.2.1 ins.2.2
        = c ++ [(ins.1, { geometry_result := ins.2.1, timestamp := ins.2.2 })] := by
      unfold cache_geometry
      rw [if_neg hclen]
      exact dictSet_fresh c ins.1 _ hnotin
    rw [hstep]
    have hnd' : (ins.1 :: t.map fun x => x.1).Nodup := by
      simpa only [List.map_cons] using hnd
    have hnd0 : ins.1 ∉ t.map fun x => x.1 := (List.nodup_cons.mp hnd').1
    have hnd2 : (t.map fun x => x.1).Nodup := (List.nodup_cons.mp hnd').2
    have hfresh2 : ∀ k ∈ t.map fun x => x.1,
        k ∉ (c ++ [(ins.1, ({ geometry_result := ins.2.1, timestamp := ins.2.2 }
            : CachedGeometry G))]).map Prod.fst := by
      intro k hk
      simp only [List.map_append, List.mem_append, List.map_cons, List.map_nil,
        List.mem_cons, List.not_mem_nil, or_false]
      rintro (h1 | h2)
      · exact hfresh k (by simp [hk]) h1
      · exact hnd0 (h2 ▸ hk)
    rw [foldl_cache_geometry_fresh t _ hnd2 hfresh2
      (by simp only [List.length_append, List.length_cons, List.length_nil] at *; omega)]
    simp

/-- Inserting into a full cache evicts the oldest entry first. -/
theorem cache_geometry_full {K G : Type} [DecidableEq K]
    (cache : List (K × CachedGeometry G)) (key : K) (gr : GeometryResult G)
    (now : ℚ) (old : K × CachedGeometry G)
    (hfull : GEOMETRY_CACHE_SIZE ≤ cache.length)
    (hold : oldestEntry (fun v => v.timestamp) cache = some old) :
    cache_geometry cache key gr now
      = dictSet (dictDelete cache old.1) key
          { geometry_result := gr, timestamp := now } := by
  unfold cache_geometry
  rw [if_pos hfull, hold]

/-- C5: the geometry cache never exceeds `GEOMETRY_CACHE_SIZE = 128`
entries: after each of the first `capacity` insertions of distinct
normalized keys the size equals the number of insertions, and the
`capacity+1`-st insertion evicts exactly one entry — the one with the
oldest timestamp, ties broken by scan (insertion) order: every entry before
the evicted one is strictly newer, every entry after it is no older — and
leaves the size equal to the capacity. -/
theorem C5_eviction_bound {K G : Type} [DecidableEq K]
    (inserts : List (K × GeometryResult G × ℚ))
    (hlen : inserts.length = GEOMETRY_CACHE_SIZE + 1)
    (hkeys : (inserts.map fun ins => ins.1).Nodup) :
    ∃ l1 evicted l2 last,
      (inserts.take GEOMETRY_CACHE_SIZE).map (fun ins => (ins.1,
          ({ geometry_result := ins.2.1, timestamp := ins.2.2 } : CachedGeometry G)))
        = l1 ++ evicted :: l2 ∧
      inserts.drop GEOMETRY_CACHE_SIZE = [last] ∧
      (∀ x ∈ l1, evicted.2.timestamp < x.2.timestamp) ∧
      (∀ x ∈ l2, evicted.2.timestamp ≤ x.2.timestamp) ∧
      (∀ n, n ≤ GEOMETRY_CACHE_SIZE →
        ((inserts.take n).foldl
          (fun cc ins => cache_geometry cc ins.1 ins.2.1 ins.2.2) []).length = n) ∧
      inserts.foldl (fun cc ins => cache_geometry cc ins.1 ins.2.1 ins.2.2) []
        = (l1 ++ l2) ++ [(last.1,
            { geometry_result := last.2.1, timestamp := last.2.2 })] ∧
      (inserts.foldl (fun cc ins => cache_geometry cc ins.1 ins.2.1 ins.2.2) []).length
        = GEOMETRY_CACHE_SIZE := by
  have htake_len : (inserts.take GEOMETRY_CACHE_SIZE).length = GEOMETRY_CACHE_SIZE := by
    rw [List.length_take, hlen]
    omega
  have hnodup_take : ∀ n, ((inserts.take n).map fun ins => ins.1).Nodup := by
    intro n
    exact hkeys.sublist ((List.take_sublist n inserts).map (fun ins => ins.1))
  have hfold_take : ∀ n, n ≤ GEOMETRY_CACHE_SIZE →
      (inserts.take n).foldl (fun cc ins => cache_geometry cc ins.1 ins.2.1 ins.2.2) []
        = (inserts.take n).map (fun ins => (ins.1,
            ({ geometry_result := ins.2.1, timestamp := ins.2.2 } : CachedGeometry G))) := by
    intro n hn
    have := foldl_cache_geometry_fresh (inserts.take n) [] (hnodup_take n)
      (by simp) (by simp only [List.length_nil, Nat.zero_add]
                    exact le_trans (by rw [List.length_take]; omega) hn)
    simpa using this
  obtain ⟨last, hdrop⟩ : ∃ last, inserts.drop GEOMETRY_CACHE_SIZE = [last] := by
    rw [← List.length_eq_one]
    rw [List.length_drop, hlen]
    omega
  obtain ⟨l1, e, l2, heq, hold, hm1, hm2⟩ :=
    oldestEntry_spec (fun v => v.timestamp)
      ((inserts.take GEOMETRY_CACHE_SIZE).map (fun ins => (ins.1,
        ({ geometry_result := ins.2.1, timestamp := ins.2.2 } : CachedGeometry G))))
      (by intro h
          have := congrArg List.length h
          simp only [List.length_map, htake_len, List.length_nil] at this
          exact absurd this (by simp [GEOMETRY_CACHE_SIZE]))
  have hes_keys : ((inserts.take GEOMETRY_CACHE_SIZE).map (fun ins => (ins.1,
      ({ geometry_result := ins.2.1, timestamp := ins.2.2 } : CachedGeometry G)))).map Prod.fst
      = (inserts.take GEOMETRY_CACHE_SIZE).map fun ins => ins.1 := by
    rw [List.map_map]
    rfl
  have hes_nodup : (((inserts.take GEOMETRY_CACHE_SIZE).map (fun ins => (ins.1,
      ({ geometry_result := ins.2.1, timestamp := ins.2.2 } : CachedGeometry G)))).map
        Prod.fst).Nodup := by
    rw [hes_keys]
    exact hnodup_take _
  have hkey_notin : e.1 ∉ l1.map Prod.fst := by
    rw [heq] at hes_nodup
    simp only [List.map_append, List.map_cons] at hes_nodup
    have hmid := List.nodup_middle.mp hes_nodup
    have := (List.nodup_cons.mp hmid).1
    intro hmem
    exact this (List.mem_append.mpr (Or.inl hmem))
  have hsplit : inserts = inserts.take GEOMETRY_CACHE_SIZE ++ [last] := by
    conv_lhs => rw [← List.take_append_drop GEOMETRY_CACHE_SIZE inserts]
    rw [hdrop]
  have hlast_notin_take : last.1 ∉ (inserts.take GEOMETRY_CACHE_SIZE).map fun ins => ins.1 := by
    have hk2 := hkeys
    rw [hsplit] at hk2
    simp only [List.map_append, List.map_cons, List.map_nil] at hk2
    have hmid := List.nodup_middle.mp hk2
    have := (List.nodup_cons.mp hmid).1
    intro hmem
    exact this (List.mem_append.mpr (Or.inl hmem))
  have hlast_fresh : last.1 ∉ (l1 ++ l2).map Prod.fst := by
    intro hmem
    apply hlast_notin_take
    rw [← hes_keys, heq]
    simp only [List.map_append, List.mem_append, List.map_cons, List.mem_cons] at hmem ⊢
    tauto
  have hfinal : inserts.foldl (fun cc ins => cache_geometry cc ins.1 ins.2.1 ins.2.2) []
      = (l1 ++ l2) ++ [(last.1, { geometry_result := last.2.1, timestamp := last.2.2 })] := by
    conv_lhs => rw [hsplit]
    rw [List.foldl_append, hfold_take GEOMETRY_CACHE_SIZE le_rfl]
    simp only [List.foldl_cons, List.foldl_nil]
    rw [cache_geometry_full _ _ _ _ e
        (le_of_eq (by rw [List.length_map, htake_len])) hold,
      heq, dictDelete_middle l1 e l2 hkey_notin]
    exact dictSet_fresh _ _ _ hlast_fresh
  have hlen_es : l1.length + l2.length + 1 = GEOMETRY_CACHE_SIZE := by
    have := congrArg List.length heq
    simp only [List.length_map, htake_len, List.length_append, List.length_cons] at this
    omega
  refine ⟨l1, e, l2, last, heq, hdrop, hm1, hm2, ?_, hfinal, ?_⟩
  · intro n hn
    rw [hfold_take n hn, List.length_map, List.length_take, hlen]
    omega
  · rw [hfinal]
    simp only [List.length_append, List.length_cons, List.length_nil]
    omega

/-- 129 concrete inserts with keys `0..128` and increasing timestamps on
the `Unit` geometry type. -/
def c5Inserts : List (ℕ × GeometryResult Unit × ℚ) :=
  (List.range (GEOMETRY_CACHE_SIZE + 1)).map (fun (i : ℕ) =>
    (i, { object_type := "Vase", geometry := (), height := 7, diameter := none },
      (i : ℚ)))

theorem c5Inserts_length : c5Inserts.length = GEOMETRY_CACHE_SIZE + 1 := by
  unfold c5Inserts
  rw [List.length_map, List.length_range]

theorem c5Inserts_keys_nodup : (c5Inserts.map fun ins => ins.1).Nodup := by
  have h : c5Inserts.map (fun ins => ins.1) = List.range (GEOMETRY_CACHE_SIZE + 1) := by
    unfold c5Inserts
    rw [List.map_map]
    exact List.map_id _
  rw [h]
  exact List.nodup_range _

/-- Witness for C5: 129 inserts with keys `0..128` and increasing
timestamps on the `Unit` geometry type. -/
theorem C5_eviction_bound_witness :
    c5Inserts.length = GEOMETRY_CACHE_SIZE + 1 ∧
    (∃ l1 evicted l2 last,
      (c5Inserts.take GEOMETRY_CACHE_SIZE).map (fun ins => (ins.1,
          ({ geometry_result := ins.2.1, timestamp := ins.2.2 } : CachedGeometry Unit)))
        = l1 ++ evicted :: l2 ∧
      c5Inserts.drop GEOMETRY_CACHE_SIZE = [last] ∧
      (∀ x ∈ l1, evicted.2.timestamp < x.2.timestamp) ∧
      (∀ x ∈ l2, evicted.2.timestamp ≤ x.2.timestamp) ∧
      (∀ n, n ≤ GEOMETRY_CACHE_SIZE →
        ((c5Inserts.take n).foldl
          (fun cc ins => cache_geometry cc ins.1 ins.2.1 ins.2.2) []).length = n) ∧
      c5Inserts.foldl (fun cc ins => cache_geometry cc ins.1 ins.2.1 ins.2.2) []
        = (l1 ++ l2) ++ [(last.1,
            { geometry_result := last.2.1, timestamp := last.2.2 })] ∧
      (c5Inserts.foldl (fun cc ins => cache_geometry cc ins.1 ins.2.1 ins.2.2) []).length
        = GEOMETRY_CACHE_SIZE) :=
  ⟨c5Inserts_length, C5_eviction_bound c5Inserts c5Inserts_length c5Inserts_keys_nodup⟩

/-- Truthiness of an optional Python float: `None` and `0.0` are falsy. -/
def optTruthy (q : Option ℚ) : Bool :=
  match q with
  | none => false
  | some v => if v = 0 then false else true

/-- The `'ui_metrics'` sub-dict of a display-data dict: either the
`diameter_height` variant or the `bounds` fallback variant. -/
inductive UIMetricsData where
  | diameterHeight (diameter height : ℚ)
  | bounds (width height depth : ℚ)

/-- `display_data` as built by `_calculate_display_data`. -/
structure DisplayData where
  ui_metrics : Option UIMetricsData
  camera_distance : Option ℚ

/-- `.get('diameter')` on the `ui_metrics` dict combined with Python
truthiness: the bounds variant has no `'diameter'` key, and a zero diameter
is falsy. -/
def uiDiameterTruthy (m : Option UIMetricsData) : Option ℚ :=
  match m with
  | some (.diameterHeight d _) => if d = 0 then none else some d
  | some (.bounds _ _ _) => none
  | none => none

/-- The min/max corners of `object_np.getBounds()` when the bounds are
non-empty. -/
structure PBounds where
  min_x : ℚ
  min_y : ℚ
  min_z : ℚ
  max_x : ℚ
  max_y : ℚ
  max_z : ℚ

/-- Observable side effects of `_apply_display_data`: the calls into the
UI-metrics panel (`show_bounding_box`) and into the camera controller
(`set_optimal_view` with one or two arguments). -/
inductive DisplayAction where
  | showBoundingBoxDiameterHeight (diameter height : ℚ)
  | showBoundingBoxBounds (width height depth : ℚ)
  | setOptimalView2 (dist diameter : ℚ)
  | setOptimalView1 (dist : ℚ)
  deriving DecidableEq

/-- State of `OptimizedMainObjectDisplayManager`.  `has_ui_metrics` and
`has_camera` record the truthiness of the injected `ui_metrics` and
`camera_controller` handles.  The display-cache key
`f"{object_type}_{height}_{diameter}"` is modelled as the tuple it renders
(an injective image for the fixed object-type names). -/
structure DisplayState where
  has_ui_metrics : Bool := true
  has_camera : Bool := true
  last_update_time : ℚ := 0
  pending_updates : ℕ := 0
  display_cache : List ((String × ℚ × Option ℚ) × DisplayData × ℚ) := []

/-- `_calculate_display_data`: UI metrics from the stored diameter/height
when a diameter exists, else from the node bounds when non-empty; camera
distance is the stored height. -/
def calculate_display_data {G : Type} (has_ui has_cam : Bool)
    (objBounds : Option PBounds) (gr : GeometryResult G) : DisplayData where
  ui_metrics :=
    if has_ui then
      match gr.diameter with
      | some d => some (.diameterHeight d gr.height)
      | none =>
          match objBounds with
          | some b => some (.bounds (b.max_x - b.min_x) (b.max_z - b.min_z)
              (b.max_y - b.min_y))
          | none => none
    else none
  camera_distance := if has_cam then some gr.height else none

/-- `_cache_display_data`: when the display cache already holds
`DISPLAY_CACHE_SIZE` entries, delete the entry with the oldest timestamp
(first in scan order among ties), then store the data stamped with the
current time. -/
def cache_display_data (cache : List ((String × ℚ × Option ℚ) × DisplayData × ℚ))
    (key : String × ℚ × Option ℚ) (data : DisplayData) (now : ℚ) :
    List ((String × ℚ × Option ℚ) × DisplayData × ℚ) :=
  let c1 :=
    if DISPLAY_CACHE_SIZE ≤ cache.length then
      match oldestEntry (fun v => v.2) cache with
      | some old => dictDelete cache old.1
      | none => cache
    else cache
  dictSet c1 key (data, now)

/-- `_apply_display_data`: the UI-metrics call followed by the camera call,
with Python truthiness deciding each branch. -/
def apply_display_data (has_ui has_cam : Bool) (d : DisplayData) :
    List DisplayAction :=
  (if has_ui then
    match d.ui_metrics with
    | some (.diameterHeight dia h) => [.showBoundingBoxDiameterHeight dia h]
    | some (.bounds w h dp) => [.showBoundingBoxBounds w h dp]
    | none => []
  else []) ++
  (if has_cam && optTruthy d.camera_distance then
    match uiDiameterTruthy d.ui_metrics with
    | some dia => [.setOptimalView2 (d.camera_distance.getD 0) dia]
    | none => [.setOptimalView1 (d.camera_distance.getD 0)]
  else [])

/-- `OptimizedMainObjectDisplayManager.update_display`, with `time.time()`
passed explicitly as `now` and the applied UI/camera calls returned
alongside the new state.  A call inside the debounce window only increments
the pending counter; otherwise the pending counter is reset, the display
cache is consulted (computing and caching on a miss), the data is applied,
and the last-update time is set to `now`. -/
def update_display {G : Type} (st : DisplayState) (objBounds : Option PBounds)
    (gr : GeometryResult G) (now : ℚ) : List DisplayAction × DisplayState :=
  if now - st.last_update_time < PARAMETER_UPDATE_DEBOUNCE / 1000 then
    ([], { st with pending_updates := st.pending_updates + 1 })
  else
    let st1 :=
      if 0 < st.pending_updates then { st with pending_updates := 0 } else st
    let key := (gr.object_type, gr.height, gr.diameter)
    match dictGet st1.display_cache key with
    | some cached =>
        (apply_display_data st1.has_ui_metrics st1.has_camera cached.1,
          { st1 with last_update_time := now })
    | none =>
        let data := calculate_display_data st1.has_ui_metrics st1.has_camera
          objBounds gr
        (apply_display_data st1.has_ui_metrics st1.has_camera data,
          { st1 with
            display_cache := cache_display_data st1.display_cache key data now,
            last_update_time := now })

/-- C6: when a second `update_display` call arrives less than the 100 ms
debounce window after an applied first call, the first call goes through
(its state records the first call's time as the last applied update) while
the second call emits no UI or camera action and changes nothing but the
pending-update counter, which it increments: display cache, last-update
time, and the UI/camera handles are exactly those of the first call's
state. -/
theorem C6_debounce_drop {G : Type}
    (st : DisplayState) (b1 b2 : Option PBounds) (gr1 gr2 : GeometryResult G)
    (t1 t2 : ℚ)
    (h1 : PARAMETER_UPDATE_DEBOUNCE / 1000 ≤ t1 - st.last_update_time)
    (h2 : t2 - t1 < PARAMETER_UPDATE_DEBOUNCE / 1000) :
    (update_display st b1 gr1 t1).2.last_update_time = t1 ∧
    (update_display (update_display st b1 gr1 t1).2 b2 gr2 t2).1 = [] ∧
    (update_display (update_display st b1 gr1 t1).2 b2 gr2 t2).2
      = { (update_display st b1 gr1 t1).2 with
          pending_updates := (update_display st b1 gr1 t1).2.pending_updates + 1 } := by
  have hguard1 : ¬ (t1 - st.last_update_time < PARAMETER_UPDATE_DEBOUNCE / 1000) :=
    not_lt.mpr h1
  have hlast : (update_display st b1 gr1 t1).2.last_update_time = t1 := by
    unfold update_display
    rw [if_neg hguard1]
    dsimp only
    split <;> rfl
  refine ⟨hlast, ?_⟩
  generalize hS : (update_display st b1 gr1 t1).2 = S1 at hlast ⊢
  have hg2 : t2 - S1.last_update_time < PARAMETER_UPDATE_DEBOUNCE / 1000 := by
    rw [hlast]
    exact h2
  constructor
  · unfold update_display
    rw [if_pos hg2]
  · unfold update_display
    rw [if_pos hg2]

/-- Concrete display state for the C6 witness: fresh manager with truthy
UI-metrics and camera handles. -/
def c6State : DisplayState := {}

/-- Concrete geometry result for the C6 witness. -/
def c6Gr : GeometryResult Unit where
  object_type := "Vase"
  geometry := ()
  height := 7
  diameter := some 2

theorem c6_hyp1 : PARAMETER_UPDATE_DEBOUNCE / 1000 ≤ (1 : ℚ) - c6State.last_update_time := by
  show PARAMETER_UPDATE_DEBOUNCE / 1000 ≤ (1 : ℚ) - 0
  rw [PARAMETER_UPDATE_DEBOUNCE]
  norm_num

theorem c6_hyp2 : (101 / 100 : ℚ) - 1 < PARAMETER_UPDATE_DEBOUNCE / 1000 := by
  rw [PARAMETER_UPDATE_DEBOUNCE]
  norm_num

/-- Witness for C6: first call at `t = 1` on a fresh manager, second call
at `t = 1.01`, inside the 0.1 s window. -/
theorem C6_debounce_drop_witness :
    (PARAMETER_UPDATE_DEBOUNCE / 1000 ≤ (1 : ℚ) - c6State.last_update_time ∧
     (101 / 100 : ℚ) - 1 < PARAMETER_UPDATE_DEBOUNCE / 1000) ∧
    ((update_display c6State none c6Gr 1).2.last_update_time = 1 ∧
     (update_display (update_display c6State none c6Gr 1).2 none c6Gr (101 / 100)).1 = [] ∧
     (update_display (update_display c6State none c6Gr 1).2 none c6Gr (101 / 100)).2
       = { (update_display c6State none c6Gr 1).2 with
           pending_updates := (update_display c6State none c6Gr 1).2.pending_updates + 1 }) :=
  ⟨⟨c6_hyp1, c6_hyp2⟩,
    C6_debounce_drop c6State none none c6Gr c6Gr 1 (101 / 100) c6_hyp1 c6_hyp2⟩

/-- `ObjectCreationRequest`, with the dataclass defaults for `position`
and `scale`. -/
structure ObjectCreationRequest where
  params : ParamsMap
  object_type : String
  position : ℚ × ℚ × ℚ := (0, 0, 0)
  scale : ℚ := 1

/-- Full state of `OptimizedObjectCreationService`: the two registered
geometry providers (dict keys `"Vace"` and `"Table"`), the display
manager, the scene-factory state (abstract type `F`), and the performance
counters. -/
structure ServiceState (G F : Type) where
  vase_provider : ProviderState G := {}
  table_provider : ProviderState G := {}
  display : DisplayState := {}
  factory : F
  creation_times : List ℚ := []
  total_creations : ℕ := 0

/-- `OptimizedObjectCreationService.create_object`, parameterized by the
two mesh builders and the scene factory's `create_scene_object` (state
transformer on the abstract factory state `F`, returning the scene object
of type `O`).  `t_start` and `t_end` stand for the two `time.time()`
reads; internal timestamps use `t_start`.  Dispatch: the provider dict
holds exactly `"Vace"` and `"Table"`; any other type is rejected
immediately with `ValueError(f"Unsupported object type: ...")` before any
geometry, cache, display, or performance-counter activity. -/
def create_object {G F O : Type}
    (vaseBuilder : ℤ → ℚ → ℚ → ℚ → ℚ → ℚ → String × G × ℚ × ℚ)
    (tableBuilder : ℤ → ℚ → ℚ → ℚ → ℚ → ℚ → String × G)
    (factory_fn : F → ObjectCreationRequest → GeometryResult G → O × F)
    (objBounds : Option PBounds)
    (st : ServiceState G F) (request : ObjectCreationRequest)
    (t_start t_end : ℚ) :
    Except String O × ServiceState G F :=
  if request.object_type = "Vace" then
    let pr := vase_create_geometry vaseBuilder st.vase_provider request.params t_start
    let geometry_result := pr.1
    let st1 := { st with vase_provider := pr.2 }
    let fo := factory_fn st1.factory request geometry_result
    let st2 := { st1 with factory := fo.2 }
    let st3 :=
      if request.position = (0, 0, 0) then
        { st2 with display := (update_display st2.display objBounds geometry_result t_start).2 }
      else st2
    let times1 := st3.creation_times ++ [t_end - t_start]
    let times2 := if 100 < times1.length then times1.drop 1 else times1
    (.ok fo.1,
      { st3 with creation_times := times2, total_creations := st3.total_creations + 1 })
  else if request.object_type = "Table" then
    let pr := table_create_geometry tableBuilder st.table_provider request.params t_start
    let geometry_result := pr.1
    let st1 := { st with table_provider := pr.2 }
    let fo := factory_fn st1.factory request geometry_result
    let st2 := { st1 with factory := fo.2 }
    let st3 :=
      if request.position = (0, 0, 0) then
        { st2 with display := (update_display st2.display objBounds geometry_result t_start).2 }
      else st2
    let times1 := st3.creation_times ++ [t_end - t_start]
    let times2 := if 100 < times1.length then times1.drop 1 else times1
    (.ok fo.1,
      { st3 with creation_times := times2, total_creations := st3.total_creations + 1 })
  else
    (.error ("Unsupported object type: " ++ request.object_type), st)

/-- C9: `create_object` fails with the unsupported-object-type `ValueError`
iff the request's object type is neither of the two registered provider
keys `"Vace"` and `"Table"`; in that case the whole service state —
provider caches and hit/miss counters, display manager, scene factory, and
performance samples — is returned exactly unchanged, so the error precedes
any geometry build, cache access, or performance recording. -/
theorem C9_unsupported_object_type {G F O : Type}
    (vb : ℤ → ℚ → ℚ → ℚ → ℚ → ℚ → String × G × ℚ × ℚ)
    (tb : ℤ → ℚ → ℚ → ℚ → ℚ → ℚ → String × G)
    (ff : F → ObjectCreationRequest → GeometryResult G → O × F)
    (ob : Option PBounds)
    (st : ServiceState G F) (request : ObjectCreationRequest) (t1 t2 : ℚ) :
    ((∃ msg, (create_object vb tb ff ob st request t1 t2).1 = .error msg) ↔
      (request.object_type ≠ "Vace" ∧ request.object_type ≠ "Table")) ∧
    (request.object_type ≠ "Vace" → request.object_type ≠ "Table" →
      create_object vb tb ff ob st request t1 t2
        = (.error ("Unsupported object type: " ++ request.object_type), st)) := by
  constructor
  · constructor
    · rintro ⟨msg, hmsg⟩
      constructor
      · intro hv
        unfold create_object at hmsg
        rw [if_pos hv] at hmsg
        simp at hmsg
      · intro ht
        unfold create_object at hmsg
        by_cases hv : request.object_type = "Vace"
        · rw [if_pos hv] at hmsg
          simp at hmsg
        · rw [if_neg hv, if_pos ht] at hmsg
          simp at hmsg
    · rintro ⟨hv, ht⟩
      refine ⟨"Unsupported object type: " ++ request.object_type, ?_⟩
      unfold create_object
      rw [if_neg hv, if_neg ht]
  · intro hv ht
    unfold create_object
    rw [if_neg hv, if_neg ht]

/-- Concrete "Chair" request for the C9 witness. -/
def c9Req : ObjectCreationRequest where
  params := { segmentCount := 5, objectWidth := 1, twistAngle := 0,
              grooveDepth := 1, waveFreq := 3, waveDepth := 1 }
  object_type := "Chair"

/-- Concrete service state for the C9 witness (all components fresh, `Unit`
factory). -/
def c9St : ServiceState Unit Unit := { factory := () }

/-- Concrete dummy builders and factory for the C9 witness. -/
def c9Vb : ℤ → ℚ → ℚ → ℚ → ℚ → ℚ → String × Unit × ℚ × ℚ :=
  fun _ _ _ _ _ _ => ("Vase", (), 7, 2)

def c9Tb : ℤ → ℚ → ℚ → ℚ → ℚ → ℚ → String × Unit :=
  fun _ _ _ _ _ _ => ("Table", ())

def c9Ff : Unit → ObjectCreationRequest → GeometryResult Unit → Unit × Unit :=
  fun _ _ _ => ((), ())

/-- Witness for C9: a `"Chair"` request is rejected with the
unsupported-object-type error and leaves the fresh service state
untouched. -/
theorem C9_unsupported_object_type_witness :
    ((∃ msg, (create_object c9Vb c9Tb c9Ff none c9St c9Req 0 1).1 = .error msg) ↔
      (c9Req.object_type ≠ "Vace" ∧ c9Req.object_type ≠ "Table")) ∧
    (c9Req.object_type ≠ "Vace" ∧ c9Req.object_type ≠ "Table") ∧
    create_object c9Vb c9Tb c9Ff none c9St c9Req 0 1
      = (.error ("Unsupported object type: " ++ c9Req.object_type), c9St) := by
  have h := C9_unsupported_object_type c9Vb c9Tb c9Ff none c9St c9Req 0 1
  have hv : c9Req.object_type ≠ "Vace" := by decide
  have ht : c9Req.object_type ≠ "Table" := by decide
  exact ⟨h.1, ⟨hv, ht⟩, h.2 hv ht⟩

end AppCore

end ParametricDesignTool
